import Mathlib

/-!
Shallow embedding of the mkplaylist core: the criteria query parser
(`services/query_parser.py`), the store query and mutation operations
(`database/db_manager.py`), and the playlist service
(`services/playlist_service.py`).  Strings are modelled as `List Char`
(Python `str` of ASCII text), timestamps as `Int` seconds, and the
regular-expression patterns of the parser as a small backtracking
matcher whose candidate order mirrors Python `re` semantics
(leftmost search position first; within a position: alternatives in
written order, greedy quantifiers longest first, lazy shortest first).
-/

namespace Mkplaylist

/-! ## Regular-expression fragment used by the query parser -/

/-- Abstract syntax of the regex fragment the eight patterns need:
literals, concatenation, alternation, an optional (greedy `?`) group,
greedy `+` and `*` over a character class, a lazy `+` is handled at the
capture site, and the end-of-string anchor. -/
inductive RE where
  | lit (s : List Char)
  | seq (a b : RE)
  | alt (a b : RE)
  | opt (a : RE)
  | plusGreedy (p : Char → Bool)
  | starGreedy (p : Char → Bool)
  | eos

/-- All remainders at which `re` can finish matching a prefix of `xs`,
in backtracking order: the head of the list is the remainder the Python
`re` engine commits to first. -/
def mruns : RE → List Char → List (List Char)
  | .lit s, xs => if s.isPrefixOf xs then [xs.drop s.length] else []
  | .seq a b, xs => (mruns a xs).flatMap (mruns b)
  | .alt a b, xs => mruns a xs ++ mruns b xs
  | .opt a, xs => mruns a xs ++ [xs]
  | .plusGreedy p, xs =>
      let m := (xs.takeWhile p).length
      (List.range m).map (fun j => xs.drop (m - j))
  | .starGreedy p, xs =>
      let m := (xs.takeWhile p).length
      (List.range (m + 1)).map (fun j => xs.drop (m - j))
  | .eos, xs => if xs.isEmpty then [[]] else []

/-- `\s` of Python `re` (ASCII fragment). -/
def wsP : Char → Bool := Char.isWhitespace

/-- `.` of Python `re`: any character except a newline. -/
def dotP : Char → Bool := fun c => c != '\n'

/-- `\s+` -/
def ws1 : RE := .plusGreedy wsP

/-- `\s*` -/
def ws0 : RE := .starGreedy wsP

def reStr (s : String) : RE := .lit s.data

def seqs : List RE → RE
  | [] => .lit []
  | [r] => r
  | r :: rs => .seq r (seqs rs)

/-- Value of a decimal-digit capture, as Python `int` reads it. -/
def digitsToNat (ds : List Char) : Nat :=
  ds.foldl (fun n c => n * 10 + (c.toNat - 48)) 0

/-- Match `(\d+)` followed by `post` at the start of `xs`, returning the
numeric capture: the digit run is greedy, longest candidate first. -/
def matchNumAt (post : RE) (xs : List Char) : Option Nat :=
  let m := (xs.takeWhile Char.isDigit).length
  ((List.range m).map (fun j => m - j)).findSome? fun i =>
    if mruns post (xs.drop i) ≠ [] then some (digitsToNat (xs.take i)) else none

/-- Match `pre` then `(\d+)` then `post` at the start of `xs`
(the `songs (added|played) in the last (\d+) days` shape). -/
def matchMidNumAt (pre post : RE) (xs : List Char) : Option Nat :=
  (mruns pre xs).findSome? fun r => matchNumAt post r

/-- Match `pre` then the lazy capture `(.+?)` then `post` at the start
of `xs`, returning the capture: shortest candidate first. -/
def matchFilterAt (pre post : RE) (xs : List Char) : Option (List Char) :=
  (mruns pre xs).findSome? fun r =>
    let mm := (r.takeWhile dotP).length
    ((List.range mm).map (fun j => j + 1)).findSome? fun i =>
      if mruns post (r.drop i) ≠ [] then some (r.take i) else none

/-- `re.search`: try the matcher at every start position, leftmost first
(the final empty suffix included). -/
def searchL (f : List Char → Option α) : List Char → Option α
  | [] => f []
  | x :: xs =>
    match f (x :: xs) with
    | some r => some r
    | none => searchL f xs

/-! ## The eight patterns of `QueryParser.__init__` -/

/-- after the capture of `(\d+)\s+(?:most\s+)?recently\s+added\s+songs` -/
def postRecentlyAdded : RE :=
  seqs [ws1, .opt (.seq (reStr "most") ws1), reStr "recently", ws1, reStr "added", ws1, reStr "songs"]

/-- after the capture of `(\d+)\s+(?:most\s+)?(?:recently\s+played|last\s+played)\s+songs` -/
def postLastPlayed : RE :=
  seqs [ws1, .opt (.seq (reStr "most") ws1),
        .alt (seqs [reStr "recently", ws1, reStr "played"]) (seqs [reStr "last", ws1, reStr "played"]),
        ws1, reStr "songs"]

/-- after the capture of `(\d+)\s+most\s+played\s+songs` -/
def postMostPlayed : RE :=
  seqs [ws1, reStr "most", ws1, reStr "played", ws1, reStr "songs"]

/-- before the capture of `songs\s+by\s+(.+?)(?:\s+and|\s*$)` -/
def preArtist : RE := seqs [reStr "songs", ws1, reStr "by", ws1]

/-- before the capture of `songs\s+from\s+(.+?)(?:\s+and|\s*$)` -/
def preAlbum : RE := seqs [reStr "songs", ws1, reStr "from", ws1]

/-- before the capture of `songs\s+in\s+(.+?)(?:\s+and|\s*$)` -/
def preGenre : RE := seqs [reStr "songs", ws1, reStr "in", ws1]

/-- the tail `(?:\s+and|\s*$)` of the three filter patterns -/
def postFilter : RE := .alt (.seq ws1 (reStr "and")) (.seq ws0 .eos)

/-- before the capture of `songs\s+added\s+in\s+the\s+last\s+(\d+)\s+days` -/
def preAddedDays : RE :=
  seqs [reStr "songs", ws1, reStr "added", ws1, reStr "in", ws1, reStr "the", ws1, reStr "last", ws1]

/-- before the capture of `songs\s+played\s+in\s+the\s+last\s+(\d+)\s+days` -/
def prePlayedDays : RE :=
  seqs [reStr "songs", ws1, reStr "played", ws1, reStr "in", ws1, reStr "the", ws1, reStr "last", ws1]

/-- the tail `\s+days` of the two day-window patterns -/
def postDays : RE := .seq ws1 (reStr "days")

/-! ## Criteria specifications -/

/-- The criteria dictionary built by `QueryParser._build_criteria`
(a field is `none` when the key is absent from the dict). -/
structure Criteria where
  artist : Option String := none
  album : Option String := none
  genre : Option String := none
  added_after : Option Int := none
  played_after : Option Int := none
  sort_by : Option String := none
  sort_order : Option String := none
  limit : Option Nat := none
deriving Repr, DecidableEq

/-- Python `str.strip()` on a character list. -/
def trimChars (xs : List Char) : List Char :=
  ((xs.dropWhile Char.isWhitespace).reverse.dropWhile Char.isWhitespace).reverse

/-- Seconds in a day: `timedelta(days=n)` is `n * oneDay`. -/
def oneDay : Int := 86400

/-- `QueryParser._parse_single_criteria` fused with `_build_criteria`:
try the eight patterns in the fixed dictionary order, first match wins;
`none` is the empty dict (no pattern matched).  `now` is `datetime.now()`. -/
def parseSingle (now : Int) (xs : List Char) : Option Criteria :=
  match searchL (matchNumAt postRecentlyAdded) xs with
  | some n => some { sort_by := some "added_at", sort_order := some "desc", limit := some n }
  | none =>
  match searchL (matchNumAt postLastPlayed) xs with
  | some n => some { sort_by := some "last_played_at", sort_order := some "desc", limit := some n }
  | none =>
  match searchL (matchNumAt postMostPlayed) xs with
  | some n => some { sort_by := some "play_count", sort_order := some "desc", limit := some n }
  | none =>
  match searchL (matchFilterAt preArtist postFilter) xs with
  | some a => some { artist := some (String.mk (trimChars a)) }
  | none =>
  match searchL (matchFilterAt preAlbum postFilter) xs with
  | some a => some { album := some (String.mk (trimChars a)) }
  | none =>
  match searchL (matchFilterAt preGenre postFilter) xs with
  | some a => some { genre := some (String.mk (trimChars a)) }
  | none =>
  match searchL (matchMidNumAt preAddedDays postDays) xs with
  | some d => some { added_after := some (now - (d : Int) * oneDay), sort_by := some "added_at", sort_order := some "desc" }
  | none =>
  match searchL (matchMidNumAt prePlayedDays postDays) xs with
  | some d => some { played_after := some (now - (d : Int) * oneDay), sort_by := some "last_played_at", sort_order := some "desc" }
  | none => none

/-- Result of `QueryParser.parse`: a plain criteria dict (`single`,
with the all-`none` record standing for the empty dict `{}`), or a
`combined_criteria` dict with an optional top-level limit (the parser
itself never sets that limit; `create_playlist` may). -/
inductive Spec where
  | single (c : Criteria)
  | combined (cs : List Criteria) (limit : Option Nat)
deriving Repr, DecidableEq

/-- The separator `" and "`. -/
def andSep : List Char := [' ', 'a', 'n', 'd', ' ']

/-- Python `needle in haystack` substring test. -/
def containsSub (needle : List Char) : List Char → Bool
  | [] => needle.isEmpty
  | x :: xs => needle.isPrefixOf (x :: xs) || containsSub needle xs

/-- Python `s.split(" and ")`: left-to-right, non-overlapping. -/
def splitAndGo : List Char → List Char → List (List Char)
  | [], acc => [acc.reverse]
  | ' ' :: 'a' :: 'n' :: 'd' :: ' ' :: rest, acc => acc.reverse :: splitAndGo rest []
  | x :: xs, acc => splitAndGo xs (x :: acc)

def splitAnd (xs : List Char) : List (List Char) := splitAndGo xs []

/-- Python `str.lower()` (ASCII fragment). -/
def lowerL (xs : List Char) : List Char := xs.map Char.toLower

/-- `QueryParser.parse`: lower-case, split on `" and "` when present and
parse each stripped non-empty part (failed parts dropped); otherwise
parse the whole string as a single clause. -/
def parse (now : Int) (s : String) : Spec :=
  let ls := lowerL s.data
  if containsSub andSep ls then
    let combined := (splitAnd ls).filterMap fun part =>
      let part := trimChars part
      if part.isEmpty then none else parseSingle now part
    if combined.isEmpty then .single {} else .combined combined none
  else
    .single ((parseSingle now ls).getD {})

/-! ## The track store (`database/models.py`, `database/db_manager.py`) -/

/-- A row of `mkplaylist_tracks` (the fields the core reads/writes). -/
structure Track where
  id : Nat
  spotify_id : Option String := none
  name : String := ""
  artist : String := ""
  album : Option String := none
  added_at : Option Int := none
  last_played_at : Option Int := none
  play_count : Nat := 0
deriving Repr, DecidableEq

/-- The filter part of `DatabaseManager.get_tracks_by_criteria`: exact
match on artist/album, range predicates on the timestamps (a SQL
comparison with NULL excludes the row).  The `genre` key is ignored,
as in the source (the table has no genre column). -/
def trackMatches (c : Criteria) (t : Track) : Bool :=
  (match c.artist with | some a => t.artist == a | none => true) &&
  (match c.album with | some a => t.album == some a | none => true) &&
  (match c.added_after with
   | some ts => match t.added_at with | some x => decide (ts ≤ x) | none => false
   | none => true) &&
  (match c.played_after with
   | some ts => match t.last_played_at with | some x => decide (ts ≤ x) | none => false
   | none => true)

/-- Strict order on nullable sort keys: SQLite treats NULL as smaller
than every value, so `ORDER BY key DESC` puts NULL rows last. -/
def optLtKey : Option Int → Option Int → Bool
  | none, none => false
  | none, some _ => true
  | some _, none => false
  | some a, some b => decide (a < b)

def insertDesc (key : Track → Option Int) (t : Track) : List Track → List Track
  | [] => [t]
  | h :: rest => if optLtKey (key t) (key h) then h :: insertDesc key t rest else t :: h :: rest

/-- Stable descending sort by a nullable key (`ORDER BY ... DESC`). -/
def sortDesc (key : Track → Option Int) : List Track → List Track
  | [] => []
  | t :: ts => insertDesc key t (sortDesc key ts)

/-- `DatabaseManager.get_tracks_by_criteria`: filter, then the single
requested descending sort, then the limit.  A store query with no
ORDER BY returns rows in store (insertion) order. -/
def dbGetTracksByCriteria (store : List Track) (c : Criteria) : List Track :=
  let q := store.filter (trackMatches c)
  let q :=
    if c.sort_by == some "added_at" then sortDesc (fun t => t.added_at) q
    else if c.sort_by == some "last_played_at" then sortDesc (fun t => t.last_played_at) q
    else if c.sort_by == some "play_count" then sortDesc (fun t => some (t.play_count : Int)) q
    else q
  match c.limit with
  | some n => q.take n
  | none => q

/-! ## The playlist service (`services/playlist_service.py`) -/

/-- The `unique_tracks` dict of `PlaylistService.get_tracks_by_criteria`:
keep the first occurrence of each track id. -/
def dedupGo (seen : List Nat) : List Track → List Track
  | [] => []
  | t :: ts => if seen.contains t.id then dedupGo seen ts else t :: dedupGo (t.id :: seen) ts

def dedupById (l : List Track) : List Track := dedupGo [] l

/-- `PlaylistService.get_tracks_by_criteria`: compound criteria run each
sub-criteria against the store, concatenate, deduplicate by id and apply
the top-level limit; a single criteria goes straight to the store. -/
def serviceGetTracks (store : List Track) : Spec → List Track
  | .single c => dbGetTracksByCriteria store c
  | .combined cs lim =>
    let combined := cs.flatMap (dbGetTracksByCriteria store)
    let uniq := dedupById combined
    match lim with
    | some l => uniq.take l
    | none => uniq

/-- One call issued to the external Spotify client. -/
inductive SpotifyCall where
  | authenticate
  | getUserPlaylists
  | createPlaylist (name description : String) (isPublic : Bool)
  | addTracks (playlistId : String) (uris : List String)
  | replaceTracks (playlistId : String) (uris : List String)
deriving Repr, DecidableEq

/-- The result dict of `PlaylistService.create_playlist`
(a field is `none` when the key is absent). -/
structure CreateResult where
  success : Bool
  error : Option String := none
  name : String := ""
  criteria : String := ""
  tracks_found : Option Nat := none
  playlist_id : Option String := none
  tracks_added : Option Nat := none
  replaced : Option Bool := none
  created : Option Bool := none
deriving Repr, DecidableEq

/-- `parsed_criteria["limit"] = limit` when the caller passed a limit. -/
def setLimit : Spec → Option Nat → Spec
  | sp, none => sp
  | .single c, some l => .single { c with limit := some l }
  | .combined cs _, some l => .combined cs (some l)

/-- The URI comprehension: `f"spotify:track:{track.spotify_id}" for track
in tracks if track.spotify_id` (an empty or missing id is falsy). -/
def trackUri (t : Track) : Option String :=
  match t.spotify_id with
  | some s => if s = "" then none else some ("spotify:track:" ++ s)
  | none => none

/-- `PlaylistService.create_playlist`, with the external client replaced
by its trace: `userPlaylists` is what `get_user_playlists` returns
(name, id), `newPlaylistId` the id `create_playlist` would mint, and the
second component the calls issued to the client, in order. -/
def createPlaylistSvc (now : Int) (store : List Track)
    (userPlaylists : List (String × String)) (newPlaylistId : String)
    (name criteria : String) (description : Option String)
    (isPublic collaborative replace : Bool) (limit : Option Nat) :
    CreateResult × List SpotifyCall :=
  let parsed := setLimit (parse now criteria) limit
  let tracks := serviceGetTracks store parsed
  if tracks.isEmpty then
    ({ success := false, error := some "No tracks found matching criteria",
       name := name, criteria := criteria, tracks_found := some 0 }, [])
  else
    let existing := (userPlaylists.find? (fun p => p.1 == name)).map (fun p => p.2)
    let uris := tracks.filterMap trackUri
    match existing with
    | some pid =>
      ({ success := true, playlist_id := some pid, name := name, criteria := criteria,
         tracks_added := some uris.length, replaced := some replace, created := some false },
       [SpotifyCall.authenticate, SpotifyCall.getUserPlaylists,
        if replace then SpotifyCall.replaceTracks pid uris else SpotifyCall.addTracks pid uris])
    | none =>
      let desc := description.getD ("Created by mkplaylist with criteria: " ++ criteria)
      ({ success := true, playlist_id := some newPlaylistId, name := name, criteria := criteria,
         tracks_added := some uris.length, replaced := some false, created := some true },
       [SpotifyCall.authenticate, SpotifyCall.getUserPlaylists,
        SpotifyCall.createPlaylist name desc isPublic,
        SpotifyCall.addTracks newPlaylistId uris])

/-! ## Track and listening-history mutation (`db_manager.py`) -/

/-- A row of `mkplaylist_listening_history`. -/
structure HistoryRow where
  track_id : Nat
  played_at : Int
  source : String := "lastfm"
deriving Repr, DecidableEq

/-- The store state the mutation operations act on. -/
structure DB where
  tracks : List Track := []
  history : List HistoryRow := []
deriving Repr, DecidableEq

/-- Mutate the first row satisfying `p` (what `filter_by(...).first()`
followed by attribute assignment and commit does). -/
def updateFirstP (p : Track → Bool) (f : Track → Track) : List Track → List Track
  | [] => []
  | t :: ts => if p t then f t :: ts else t :: updateFirstP p f ts

/-- The track-side effect of `add_listening_event`: bump
`last_played_at` only when the event is strictly more recent (or the
field was NULL), and always increment `play_count`. -/
def playEventUpdate (playedAt : Int) (t : Track) : Track :=
  let t' :=
    if (match t.last_played_at with | none => true | some old => decide (old < playedAt)) then
      { t with last_played_at := some playedAt }
    else t
  { t' with play_count := t'.play_count + 1 }

/-- `DatabaseManager.add_listening_event`: append the history row and
update the owning track, if it exists. -/
def addListeningEvent (db : DB) (trackId : Nat) (playedAt : Int) (source : String) : DB :=
  { tracks := updateFirstP (fun t => t.id == trackId) (playEventUpdate playedAt) db.tracks,
    history := db.history ++ [{ track_id := trackId, played_at := playedAt, source := source }] }

/-- The `track_data` dict passed to `add_track` (a field is `none` when
the key is absent from the dict). -/
structure TrackData where
  spotify_id : Option String := none
  name : Option String := none
  artist : Option String := none
  album : Option String := none
  added_at : Option Int := none
  last_played_at : Option Int := none
  play_count : Option Nat := none
deriving Repr, DecidableEq

/-- The `setattr` loop of `add_track`: overwrite exactly the attributes
whose key is present in the dict (the `id` key is skipped and `TrackData`
carries no id). -/
def applyTrackData (d : TrackData) (t : Track) : Track :=
  { t with
    spotify_id := match d.spotify_id with | some v => some v | none => t.spotify_id
    name := d.name.getD t.name
    artist := d.artist.getD t.artist
    album := match d.album with | some v => some v | none => t.album
    added_at := match d.added_at with | some v => some v | none => t.added_at
    last_played_at := match d.last_played_at with | some v => some v | none => t.last_played_at
    play_count := d.play_count.getD t.play_count }

/-- `Track(**track_data)` then commit: column defaults fill the missing
fields (`added_at` defaults to the current time, `play_count` to 0). -/
def newTrack (nid : Nat) (now : Int) (d : TrackData) : Track :=
  { id := nid, spotify_id := d.spotify_id, name := d.name.getD "", artist := d.artist.getD "",
    album := d.album, added_at := some (d.added_at.getD now), last_played_at := d.last_played_at,
    play_count := d.play_count.getD 0 }

/-- The payloads of the add/replace calls in a client trace. -/
def urisSent (calls : List SpotifyCall) : List (List String) :=
  calls.filterMap fun c =>
    match c with
    | .addTracks _ us => some us
    | .replaceTracks _ us => some us
    | _ => none

/-- `DatabaseManager.add_track`: upsert by truthy `spotify_id` (a missing
or empty id always inserts a fresh row). -/
def addTrack (db : DB) (d : TrackData) (now : Int) (nid : Nat) : DB :=
  match d.spotify_id with
  | some s =>
    if s == "" then { db with tracks := db.tracks ++ [newTrack nid now d] }
    else
      match db.tracks.find? (fun t => t.spotify_id == some s) with
      | some _ => { db with tracks := updateFirstP (fun t => t.spotify_id == some s) (applyTrackData d) db.tracks }
      | none => { db with tracks := db.tracks ++ [newTrack nid now d] }
  | none => { db with tracks := db.tracks ++ [newTrack nid now d] }

/-! ## General helper lemmas -/

theorem findSome?_eq_none_of {f : α → Option β} {l : List α}
    (h : ∀ a ∈ l, f a = none) : l.findSome? f = none := by
  induction l with
  | nil => rfl
  | cons x xs ih =>
    rw [List.findSome?_cons, h x (List.mem_cons_self x xs)]
    exact ih fun a ha => h a (List.mem_cons_of_mem x ha)

theorem findSome?_eq_of_unique {f : α → Option β} {l : List α} {j : α} {v : β}
    (hj : j ∈ l) (hv : f j = some v) (ho : ∀ a ∈ l, a ≠ j → f a = none) :
    l.findSome? f = some v := by
  induction l with
  | nil => cases hj
  | cons x xs ih =>
    rw [List.findSome?_cons]
    by_cases hx : x = j
    · subst hx; rw [hv]
    · rw [ho x (List.mem_cons_self x xs) hx]
      have hjx : j ∈ xs := by
        rcases List.mem_cons.mp hj with h | h
        · exact absurd h.symm hx
        · exact h
      exact ih hjx fun a ha => ho a (List.mem_cons_of_mem x ha)

theorem takeWhile_append_all {p : Char → Bool} {ds : List Char} {t : List Char}
    (hds : ∀ c ∈ ds, p c = true) : (ds ++ t).takeWhile p = ds ++ t.takeWhile p := by
  induction ds with
  | nil => rfl
  | cons d rest ih =>
    have hd := hds d (List.mem_cons_self d rest)
    have ih' := ih fun c hc => hds c (List.mem_cons_of_mem d hc)
    simp [List.takeWhile_cons, hd, ih']

theorem takeWhile_cons_false {p : Char → Bool} {c : Char} {t : List Char}
    (hc : p c = false) : (c :: t).takeWhile p = [] := by
  simp [List.takeWhile_cons, hc]

theorem takeWhile_pred_getElem {p : Char → Bool} {l : List Char} {k : Nat}
    (hk : k < (l.takeWhile p).length) (hkl : k < l.length) :
    p (l.get ⟨k, hkl⟩) = true := by
  induction l generalizing k with
  | nil => cases hkl
  | cons x xs ih =>
    by_cases hx : p x = true
    · cases k with
      | zero => simpa using hx
      | succ n =>
        simp only [List.takeWhile_cons, hx, List.length_cons, if_true] at hk
        exact ih (Nat.lt_of_succ_lt_succ hk) (Nat.lt_of_succ_lt_succ hkl)
    · rw [Bool.not_eq_true] at hx
      rw [takeWhile_cons_false hx] at hk
      cases hk

theorem takeWhile_eq_self_of_all {p : Char → Bool} {l : List Char}
    (h : ∀ c ∈ l, p c = true) : l.takeWhile p = l := by
  induction l with
  | nil => rfl
  | cons x xs ih =>
    rw [List.takeWhile_cons, h x (List.mem_cons_self x xs)]
    simp [ih fun c hc => h c (List.mem_cons_of_mem x hc)]

theorem takeWhile_all_of_length_eq {p : Char → Bool} {l : List Char}
    (h : (l.takeWhile p).length = l.length) : ∀ c ∈ l, p c = true := by
  have heq : l.takeWhile p = l := (List.takeWhile_prefix p).eq_of_length h
  intro c hc
  rw [← heq] at hc
  exact List.mem_takeWhile_imp hc

/-! ## Character-class lemmas -/

theorem toLower_of_isDigit {c : Char} (h : c.isDigit = true) : c.toLower = c := by
  simp only [Char.isDigit, Bool.and_eq_true, decide_eq_true_eq] at h
  have h57 : c.val.toNat ≤ 57 := h.2
  have hcond : ¬(c.toNat ≥ 65 ∧ c.toNat ≤ 90) := by
    simp only [Char.toNat]
    omega
  simp only [Char.toLower, hcond, if_false]

theorem toLower_of_isLower {c : Char} (h : c.isLower = true) : c.toLower = c := by
  simp only [Char.isLower, Bool.and_eq_true, decide_eq_true_eq] at h
  have h97 : (97 : Nat) ≤ c.val.toNat := h.1
  have hcond : ¬(c.toNat ≥ 65 ∧ c.toNat ≤ 90) := by
    simp only [Char.toNat]
    omega
  simp only [Char.toLower, hcond, if_false]

theorem not_isDigit_of_isLower {c : Char} (h : c.isLower = true) : c.isDigit = false := by
  simp only [Char.isLower, Bool.and_eq_true, decide_eq_true_eq] at h
  have h97 : (97 : Nat) ≤ c.val.toNat := h.1
  cases hd : c.isDigit with
  | false => rfl
  | true =>
    simp only [Char.isDigit, Bool.and_eq_true, decide_eq_true_eq] at hd
    have h57 : c.val.toNat ≤ 57 := hd.2
    omega

theorem not_ws_of_isLower {c : Char} (h : c.isLower = true) : c.isWhitespace = false := by
  cases hws : c.isWhitespace with
  | false => rfl
  | true =>
    simp only [Char.isWhitespace, Bool.or_eq_true, decide_eq_true_eq] at hws
    rcases hws with ((rfl | rfl) | rfl) | rfl <;> exact absurd h (by decide)

theorem not_ws_of_isDigit {c : Char} (h : c.isDigit = true) : c.isWhitespace = false := by
  cases hws : c.isWhitespace with
  | false => rfl
  | true =>
    simp only [Char.isWhitespace, Bool.or_eq_true, decide_eq_true_eq] at hws
    rcases hws with ((rfl | rfl) | rfl) | rfl <;> exact absurd h (by decide)

theorem not_space_of_isDigit {c : Char} (h : c.isDigit = true) : (' ' == c) = false := by
  cases hq : (' ' == c) with
  | false => rfl
  | true =>
    have heq : (' ' : Char) = c := beq_iff_eq.mp hq
    rw [← heq] at h
    exact absurd h (by decide)

theorem not_s_of_isDigit {c : Char} (h : c.isDigit = true) : ('s' == c) = false := by
  cases hq : ('s' == c) with
  | false => rfl
  | true =>
    have heq : ('s' : Char) = c := beq_iff_eq.mp hq
    rw [← heq] at h
    exact absurd h (by decide)

/-! ## C4: the empty specification returns the whole store -/

theorem trackMatches_empty (t : Track) : trackMatches {} t = true := by
  simp [trackMatches]

theorem dbGet_empty_criteria (store : List Track) :
    dbGetTracksByCriteria store {} = store := by
  have h1 : dbGetTracksByCriteria store {} = store.filter (trackMatches {}) := rfl
  rw [h1, List.filter_congr (fun t _ => trackMatches_empty t), List.filter_true]

/-- Claim C4: evaluating the empty specification (no filter keys, no
sort_by, no limit, no combined_criteria) against the store returns every
track in the store, in store order, with no sort and no truncation —
both at the store-query level and through the service. -/
theorem c4_empty_criteria_returns_store (store : List Track) :
    dbGetTracksByCriteria store {} = store ∧
    serviceGetTracks store (.single {}) = store :=
  ⟨dbGet_empty_criteria store, dbGet_empty_criteria store⟩

/-! ## C2: compound evaluation merge and dedup -/

theorem dedupGo_sublist (seen : List Nat) (l : List Track) :
    (dedupGo seen l).Sublist l := by
  induction l generalizing seen with
  | nil => exact List.Sublist.refl []
  | cons t ts ih =>
    unfold dedupGo
    cases h : seen.contains t.id with
    | true => exact (ih seen).cons t
    | false => exact (ih (t.id :: seen)).cons₂ t

theorem dedupGo_not_seen (seen : List Nat) (l : List Track) :
    ∀ t ∈ dedupGo seen l, t.id ∉ seen := by
  induction l generalizing seen with
  | nil => intro t ht; cases ht
  | cons x xs ih =>
    intro t ht
    unfold dedupGo at ht
    cases h : seen.contains x.id with
    | true =>
      rw [h] at ht
      simp only [if_true] at ht
      exact ih seen t ht
    | false =>
      rw [h] at ht
      simp only [Bool.false_eq_true, if_false] at ht
      rcases List.mem_cons.mp ht with rfl | ht'
      · intro hmem
        have h2 : seen.contains t.id = true := List.elem_eq_true_of_mem hmem
        rw [h2] at h
        cases h
      · intro hmem
        exact (ih (x.id :: seen) t ht') (List.mem_cons_of_mem _ hmem)

theorem dedupGo_nodup_ids (seen : List Nat) (l : List Track) :
    ((dedupGo seen l).map Track.id).Nodup := by
  induction l generalizing seen with
  | nil => exact List.nodup_nil
  | cons x xs ih =>
    unfold dedupGo
    cases h : seen.contains x.id with
    | true => exact ih seen
    | false =>
      simp only [Bool.false_eq_true, if_false, List.map_cons, List.nodup_cons]
      refine ⟨?_, ih (x.id :: seen)⟩
      intro hmem
      rcases List.mem_map.mp hmem with ⟨u, hu, hid⟩
      exact (dedupGo_not_seen _ _ u hu) (by rw [hid]; exact List.mem_cons_self _ _)

theorem dedupGo_first_occurrence (seen : List Nat) (l : List Track) :
    ∀ t ∈ dedupGo seen l, l.find? (fun u => u.id == t.id) = some t := by
  induction l generalizing seen with
  | nil => intro t ht; cases ht
  | cons x xs ih =>
    intro t ht
    unfold dedupGo at ht
    cases h : seen.contains x.id with
    | true =>
      rw [h] at ht
      simp only [if_true] at ht
      have hne : (x.id == t.id) = false := by
        cases hq : (x.id == t.id) with
        | false => rfl
        | true =>
          exfalso
          have hx : x.id = t.id := beq_iff_eq.mp hq
          have hts := dedupGo_not_seen seen xs t ht
          rw [← hx] at hts
          exact hts (List.mem_of_elem_eq_true h)
      rw [List.find?_cons, hne]
      exact ih seen t ht
    | false =>
      rw [h] at ht
      simp only [Bool.false_eq_true, if_false] at ht
      rcases List.mem_cons.mp ht with rfl | ht'
      · rw [List.find?_cons, beq_self_eq_true]
      · have hts := dedupGo_not_seen (x.id :: seen) xs t ht'
        have hne : (x.id == t.id) = false := by
          cases hq : (x.id == t.id) with
          | false => rfl
          | true =>
            exfalso
            have hx : x.id = t.id := beq_iff_eq.mp hq
            exact hts (by rw [← hx]; exact List.mem_cons_self _ _)
        rw [List.find?_cons, hne]
        exact ih (x.id :: seen) t ht'

theorem dedupGo_covers (seen : List Nat) (l : List Track) :
    ∀ u ∈ l, u.id ∈ seen ∨ ∃ t ∈ dedupGo seen l, t.id = u.id := by
  induction l generalizing seen with
  | nil => intro u hu; cases hu
  | cons x xs ih =>
    intro u hu
    unfold dedupGo
    cases h : seen.contains x.id with
    | true =>
      simp only [if_true]
      rcases List.mem_cons.mp hu with rfl | hu'
      · exact Or.inl (List.mem_of_elem_eq_true h)
      · exact ih seen u hu'
    | false =>
      simp only [Bool.false_eq_true, if_false]
      rcases List.mem_cons.mp hu with rfl | hu'
      · exact Or.inr ⟨u, List.mem_cons_self _ _, rfl⟩
      · rcases ih (x.id :: seen) u hu' with hseen | ⟨t, htm, htid⟩
        · rcases List.mem_cons.mp hseen with heq | hseen'
          · exact Or.inr ⟨x, List.mem_cons_self _ _, heq.symm⟩
          · exact Or.inl hseen'
        · exact Or.inr ⟨t, List.mem_cons_of_mem _ htm, htid⟩

/-- Claim C2: compound evaluation runs each sub-specification against
the full store, concatenates the per-clause results in clause order,
deduplicates by track id keeping the first occurrence (so an id kept in
the merge is exactly the first track carrying it in concatenation
order), and finally caps the merged list at the top-level limit when one
is present. -/
theorem c2_compound_merge_dedup_limit (store : List Track) (cs : List Criteria)
    (lim : Option Nat) :
    let concatR := cs.flatMap (dbGetTracksByCriteria store)
    let merged := dedupById concatR
    serviceGetTracks store (.combined cs lim) =
      (match lim with | some l => merged.take l | none => merged) ∧
    merged.Sublist concatR ∧
    ((merged.map Track.id).Nodup) ∧
    (∀ t ∈ merged, concatR.find? (fun u => u.id == t.id) = some t) ∧
    (∀ u ∈ concatR, ∃ t ∈ merged, t.id = u.id) ∧
    (∀ l, lim = some l → (serviceGetTracks store (.combined cs lim)).length ≤ l) := by
  intro concatR merged
  refine ⟨rfl, dedupGo_sublist [] concatR, dedupGo_nodup_ids [] concatR,
    dedupGo_first_occurrence [] concatR, ?_, ?_⟩
  · intro u hu
    rcases dedupGo_covers [] concatR u hu with hseen | hex
    · cases hseen
    · exact hex
  · intro l hl
    subst hl
    have : serviceGetTracks store (.combined cs (some l)) = merged.take l := rfl
    rw [this]
    exact List.length_take_le l merged

/-! ## C6, C7: store mutations -/

theorem updateFirstP_length (p : Track → Bool) (f : Track → Track) (l : List Track) :
    (updateFirstP p f l).length = l.length := by
  induction l with
  | nil => rfl
  | cons x xs ih =>
    unfold updateFirstP
    cases h : p x with
    | true => simp
    | false => simp [ih]

theorem filter_updateFirstP {p : Track → Bool} {f : Track → Track} {l : List Track}
    {t : Track} (h : l.filter p = [t]) (hf : p (f t) = true) :
    (updateFirstP p f l).filter p = [f t] := by
  induction l with
  | nil => simp at h
  | cons x xs ih =>
    cases hx : p x with
    | true =>
      rw [List.filter_cons_of_pos hx] at h
      have hxt : x = t := (List.cons_eq_cons.mp h).1
      have hxs : xs.filter p = [] := (List.cons_eq_cons.mp h).2
      subst hxt
      unfold updateFirstP
      rw [hx]
      simp only [if_true]
      rw [List.filter_cons_of_pos hf, hxs]
    | false =>
      rw [List.filter_cons_of_neg (by simp [hx])] at h
      unfold updateFirstP
      rw [hx]
      simp only [Bool.false_eq_true, if_false]
      rw [List.filter_cons_of_neg (by simp [hx])]
      exact ih h

theorem find?_of_filter_singleton {p : Track → Bool} {l : List Track} {t : Track}
    (h : l.filter p = [t]) : l.find? p = some t := by
  induction l with
  | nil => simp at h
  | cons x xs ih =>
    cases hx : p x with
    | true =>
      rw [List.filter_cons_of_pos hx] at h
      rw [List.find?_cons, hx]
      exact congrArg some (List.cons_eq_cons.mp h).1
    | false =>
      rw [List.filter_cons_of_neg (by simp [hx])] at h
      rw [List.find?_cons, hx]
      exact ih h

/-- Claim C6: for an existing track, `add_listening_event` appends
exactly one history row for that track, increments the track's
`play_count` by exactly one, and sets `last_played_at` to the event's
timestamp exactly when the previous value was NULL or strictly older;
an equal or earlier timestamp leaves it unchanged. -/
theorem c6_add_listening_event (db : DB) (tid : Nat) (pa : Int) (src : String)
    (t : Track) (h : db.tracks.filter (fun u => u.id == tid) = [t]) :
    (addListeningEvent db tid pa src).history =
      db.history ++ [{ track_id := tid, played_at := pa, source := src }] ∧
    (addListeningEvent db tid pa src).tracks.filter (fun u => u.id == tid) =
      [{ t with
           play_count := t.play_count + 1,
           last_played_at :=
             match t.last_played_at with
             | none => some pa
             | some old => if old < pa then some pa else some old }] ∧
    (addListeningEvent db tid pa src).tracks.length = db.tracks.length := by
  have hpt : (t.id == tid) = true := by
    have : t ∈ db.tracks.filter (fun u => u.id == tid) := by
      rw [h]; exact List.mem_cons_self _ _
    exact (List.mem_filter.mp this).2
  refine ⟨rfl, ?_, updateFirstP_length _ _ _⟩
  have hid : (playEventUpdate pa t).id = t.id := by
    unfold playEventUpdate
    cases hm : (match t.last_played_at with | none => true | some old => decide (old < pa)) with
    | true => simp [hm]
    | false => simp [hm]
  have hft : ((playEventUpdate pa t).id == tid) = true := by
    rw [hid]; exact hpt
  have := filter_updateFirstP h hft
  rw [show addListeningEvent db tid pa src =
    { tracks := updateFirstP (fun u => u.id == tid) (playEventUpdate pa) db.tracks,
      history := db.history ++ [{ track_id := tid, played_at := pa, source := src }] } from rfl]
  simp only
  rw [this]
  congr 1
  unfold playEventUpdate
  cases hlp : t.last_played_at with
  | none => simp [hlp]
  | some old =>
    by_cases hcmp : old < pa
    · simp [hlp, hcmp]
    · simp [hlp, hcmp]

/-- Claim C7: re-adding a track whose non-empty `spotify_id` is already
present updates the existing row in place (the `setattr` merge) and
creates no new row: the store's track count is unchanged. -/
theorem c7_add_track_idempotent_count (db : DB) (d : TrackData) (now : Int)
    (nid : Nat) (s : String) (hs : d.spotify_id = some s) (hne : s ≠ "")
    (t : Track) (hex : db.tracks.filter (fun u => u.spotify_id == some s) = [t]) :
    (addTrack db d now nid).tracks.length = db.tracks.length ∧
    (addTrack db d now nid).tracks.filter (fun u => u.spotify_id == some s) =
      [applyTrackData d t] := by
  have hbe : (s == "") = false := by
    cases hq : (s == "") with
    | false => rfl
    | true => exact absurd (beq_iff_eq.mp hq) hne
  have hfind : db.tracks.find? (fun u => u.spotify_id == some s) = some t :=
    find?_of_filter_singleton hex
  have hpt : (t.spotify_id == some s) = true := by
    have : t ∈ db.tracks.filter (fun u => u.spotify_id == some s) := by
      rw [hex]; exact List.mem_cons_self _ _
    exact (List.mem_filter.mp this).2
  have hstep : addTrack db d now nid =
      { db with tracks := updateFirstP (fun u => u.spotify_id == some s)
                  (applyTrackData d) db.tracks } := by
    unfold addTrack
    rw [hs]
    simp only [hbe, Bool.false_eq_true, if_false]
    rw [hfind]
  rw [hstep]
  refine ⟨updateFirstP_length _ _ _, ?_⟩
  have hft : ((applyTrackData d t).spotify_id == some s) = true := by
    unfold applyTrackData
    simp only
    rw [hs]
    simp
  exact filter_updateFirstP hex hft

/-! ## C8: no external calls on empty evaluation -/

/-- Claim C8: whenever the evaluated track list is empty,
`create_playlist` returns the structured failure (success false, the
"no tracks found" error, tracks_found 0) and issues no call at all to
the external Spotify client. -/
theorem c8_empty_tracks_no_external_calls
    (now : Int) (store : List Track) (ups : List (String × String)) (nid : String)
    (name criteria : String) (desc : Option String) (pub col rep : Bool) (lim : Option Nat)
    (h : serviceGetTracks store (setLimit (parse now criteria) lim) = []) :
    createPlaylistSvc now store ups nid name criteria desc pub col rep lim =
      ({ success := false, error := some "No tracks found matching criteria",
         name := name, criteria := criteria, tracks_found := some 0 }, []) := by
  simp only [createPlaylistSvc]
  rw [h]
  rfl

/-- Closed instance of C8: an empty store with a parseable criteria. -/
theorem c8_witness :
    createPlaylistSvc 0 [] [] "p1" "nm" "songs by q" none false false false none =
      ({ success := false, error := some "No tracks found matching criteria",
         name := "nm", criteria := "songs by q", tracks_found := some 0 }, []) :=
  c8_empty_tracks_no_external_calls 0 [] [] "p1" "nm" "songs by q" none false false false
    none (by decide)

/-! ## C5: empty parse does not short-circuit (corrected) -/

/-- Counterexample to claim C5 as stated: with a non-empty store and a
criteria string no pattern recognizes (`parse` yields the empty
specification), `create_playlist` does not return the "no tracks found"
failure — it evaluates the empty specification to the whole store and
proceeds to call the external client. -/
theorem c5_counterexample :
    parse 0 "zzz" = Spec.single {} ∧
    (createPlaylistSvc 0 [{ id := 1, spotify_id := some "abc" }] [] "p1" "nm" "zzz"
        none false false false none).1.success = true ∧
    (createPlaylistSvc 0 [{ id := 1, spotify_id := some "abc" }] [] "p1" "nm" "zzz"
        none false false false none).2 ≠ [] := by
  refine ⟨by decide, by decide, by decide⟩

/-- Amended C5: when parsing yields the empty specification (and no
global limit is given), `create_playlist` returns the "no tracks found"
failure with no external calls exactly when the store itself is empty;
with a non-empty store it proceeds, treating every track of the store as
matching. -/
theorem c5_amended_empty_parse (now : Int) (store : List Track)
    (ups : List (String × String)) (nid name criteria : String) (desc : Option String)
    (pub col rep : Bool) (hparse : parse now criteria = .single {}) :
    (store = [] → createPlaylistSvc now store ups nid name criteria desc pub col rep none =
      ({ success := false, error := some "No tracks found matching criteria",
         name := name, criteria := criteria, tracks_found := some 0 }, [])) ∧
    (store ≠ [] →
      (createPlaylistSvc now store ups nid name criteria desc pub col rep none).1.success = true ∧
      (createPlaylistSvc now store ups nid name criteria desc pub col rep none).1.tracks_added =
        some (store.filterMap trackUri).length ∧
      (createPlaylistSvc now store ups nid name criteria desc pub col rep none).2 ≠ []) := by
  have htracks : serviceGetTracks store (setLimit (parse now criteria) none) = store := by
    rw [hparse]
    exact dbGet_empty_criteria store
  constructor
  · intro hempty
    subst hempty
    simp only [createPlaylistSvc]
    rw [htracks]
    rfl
  · intro hne
    have hie : store.isEmpty = false := by
      cases store with
      | nil => exact absurd rfl hne
      | cons a l => rfl
    cases hfind : (ups.find? fun p => p.1 == name) with
    | none =>
      have e : createPlaylistSvc now store ups nid name criteria desc pub col rep none =
          ({ success := true, playlist_id := some nid, name := name, criteria := criteria,
             tracks_added := some (store.filterMap trackUri).length, replaced := some false,
             created := some true },
           [SpotifyCall.authenticate, SpotifyCall.getUserPlaylists,
            SpotifyCall.createPlaylist name
              (desc.getD ("Created by mkplaylist with criteria: " ++ criteria)) pub,
            SpotifyCall.addTracks nid (store.filterMap trackUri)]) := by
        simp only [createPlaylistSvc]
        rw [htracks, hie, hfind]
        rfl
      rw [e]
      exact ⟨rfl, rfl, by simp⟩
    | some pr =>
      have e : createPlaylistSvc now store ups nid name criteria desc pub col rep none =
          ({ success := true, playlist_id := some pr.2, name := name, criteria := criteria,
             tracks_added := some (store.filterMap trackUri).length, replaced := some rep,
             created := some false },
           [SpotifyCall.authenticate, SpotifyCall.getUserPlaylists,
            if rep then SpotifyCall.replaceTracks pr.2 (store.filterMap trackUri)
            else SpotifyCall.addTracks pr.2 (store.filterMap trackUri)]) := by
        simp only [createPlaylistSvc]
        rw [htracks, hie, hfind]
        rfl
      rw [e]
      refine ⟨rfl, rfl, by simp⟩

/-- Closed instance of the amended C5 at a concrete store and criteria. -/
theorem c5_amended_witness :
    (createPlaylistSvc 0 [{ id := 1, spotify_id := some "abc" }] [] "p1" "nm" "zzz"
        none false false false none).1.success = true ∧
    (createPlaylistSvc 0 [{ id := 1, spotify_id := some "abc" }] [] "p1" "nm" "zzz"
        none false false false none).1.tracks_added = some 1 :=
  have h := (c5_amended_empty_parse 0 [{ id := 1, spotify_id := some "abc" }] [] "p1" "nm"
    "zzz" none false false false (by decide)).2 (by decide)
  ⟨h.1, h.2.1⟩

/-! ## C9: the URI list sent to the external platform -/

/-- Claim C9: when the evaluated track list is non-empty, exactly one
add-or-replace call is issued and its URI list is the evaluated tracks
mapped through the URI comprehension — one URI per track with a
non-empty `spotify_id`, in evaluated order, the rest silently dropped —
and the reported `tracks_added` equals the length of that URI list (not
of the evaluated list). -/
theorem c9_uri_list (now : Int) (store : List Track) (ups : List (String × String))
    (nid name criteria : String) (desc : Option String) (pub col rep : Bool)
    (lim : Option Nat)
    (h : serviceGetTracks store (setLimit (parse now criteria) lim) ≠ []) :
    urisSent (createPlaylistSvc now store ups nid name criteria desc pub col rep lim).2 =
      [(serviceGetTracks store (setLimit (parse now criteria) lim)).filterMap trackUri] ∧
    (createPlaylistSvc now store ups nid name criteria desc pub col rep lim).1.tracks_added =
      some ((serviceGetTracks store (setLimit (parse now criteria) lim)).filterMap trackUri).length ∧
    (∀ t : Track, trackUri t = none ↔ (t.spotify_id = none ∨ t.spotify_id = some "")) := by
  have huri : ∀ t : Track, trackUri t = none ↔ (t.spotify_id = none ∨ t.spotify_id = some "") := by
    intro t
    unfold trackUri
    cases hsp : t.spotify_id with
    | none => simp
    | some s =>
      by_cases hse : s = ""
      · subst hse; simp
      · simp [hse]
  have hie : (serviceGetTracks store (setLimit (parse now criteria) lim)).isEmpty = false := by
    cases hst : serviceGetTracks store (setLimit (parse now criteria) lim) with
    | nil => exact absurd hst h
    | cons a l => rfl
  cases hfind : (ups.find? fun p => p.1 == name) with
  | none =>
    have e : createPlaylistSvc now store ups nid name criteria desc pub col rep lim =
        ({ success := true, playlist_id := some nid, name := name, criteria := criteria,
           tracks_added :=
             some ((serviceGetTracks store (setLimit (parse now criteria) lim)).filterMap trackUri).length,
           replaced := some false, created := some true },
         [SpotifyCall.authenticate, SpotifyCall.getUserPlaylists,
          SpotifyCall.createPlaylist name
            (desc.getD ("Created by mkplaylist with criteria: " ++ criteria)) pub,
          SpotifyCall.addTracks nid
            ((serviceGetTracks store (setLimit (parse now criteria) lim)).filterMap trackUri)]) := by
      simp only [createPlaylistSvc]
      rw [hie, hfind]
      rfl
    rw [e]
    refine ⟨by simp [urisSent], rfl, huri⟩
  | some pr =>
    have e : createPlaylistSvc now store ups nid name criteria desc pub col rep lim =
        ({ success := true, playlist_id := some pr.2, name := name, criteria := criteria,
           tracks_added :=
             some ((serviceGetTracks store (setLimit (parse now criteria) lim)).filterMap trackUri).length,
           replaced := some rep, created := some false },
         [SpotifyCall.authenticate, SpotifyCall.getUserPlaylists,
          if rep then
            SpotifyCall.replaceTracks pr.2
              ((serviceGetTracks store (setLimit (parse now criteria) lim)).filterMap trackUri)
          else
            SpotifyCall.addTracks pr.2
              ((serviceGetTracks store (setLimit (parse now criteria) lim)).filterMap trackUri)]) := by
      simp only [createPlaylistSvc]
      rw [hie, hfind]
      rfl
    rw [e]
    cases hrep : rep with
    | true => refine ⟨by simp [urisSent], rfl, huri⟩
    | false => refine ⟨by simp [urisSent], rfl, huri⟩

/-- Closed instance of C9: one track with an id, one without, one empty. -/
theorem c9_witness :
    urisSent (createPlaylistSvc 0
        [{ id := 1, spotify_id := some "abc" }, { id := 2 }, { id := 3, spotify_id := some "" }]
        [] "p1" "nm" "zzz" none false false false none).2 = [["spotify:track:abc"]] ∧
    (createPlaylistSvc 0
        [{ id := 1, spotify_id := some "abc" }, { id := 2 }, { id := 3, spotify_id := some "" }]
        [] "p1" "nm" "zzz" none false false false none).1.tracks_added = some 1 :=
  have h := c9_uri_list 0
    [{ id := 1, spotify_id := some "abc" }, { id := 2 }, { id := 3, spotify_id := some "" }]
    [] "p1" "nm" "zzz" none false false false none (by decide)
  ⟨h.1, h.2.1⟩

/-- Closed instance of C2: two overlapping sub-criteria, first clause wins. -/
theorem c2_witness :
    serviceGetTracks [{ id := 1 }, { id := 2 }] (Spec.combined [{}, {}] none) =
      [{ id := 1 }, { id := 2 }] := by
  have h := (c2_compound_merge_dedup_limit [{ id := 1 }, { id := 2 }] [{}, {}] none).1
  rw [h]
  decide

/-- Closed instance of C6: a fresh track receives its first play. -/
theorem c6_witness :
    (addListeningEvent { tracks := [{ id := 1 }], history := [] } 1 100 "lastfm").history =
      [{ track_id := 1, played_at := 100, source := "lastfm" }] ∧
    (addListeningEvent { tracks := [{ id := 1 }], history := [] } 1 100 "lastfm").tracks.filter
        (fun u => u.id == 1) = [{ id := 1, play_count := 1, last_played_at := some 100 }] :=
  have h := c6_add_listening_event { tracks := [{ id := 1 }], history := [] } 1 100 "lastfm"
    { id := 1 } (by decide)
  ⟨h.1, h.2.1.trans (by decide)⟩

/-- Closed instance of C7: re-adding the same spotify_id keeps one row. -/
theorem c7_witness :
    (addTrack { tracks := [{ id := 1, spotify_id := some "a", name := "x" }], history := [] }
        { spotify_id := some "a", name := some "y" } 0 2).tracks.length = 1 :=
  have h := c7_add_track_idempotent_count
    { tracks := [{ id := 1, spotify_id := some "a", name := "x" }], history := [] }
    { spotify_id := some "a", name := some "y" } 0 2 "a" rfl (by decide)
    { id := 1, spotify_id := some "a", name := "x" } (by decide)
  h.1.trans (by decide)

/-! ## C1, C10: the compound " and " path -/

theorem containsSub_iff_isInfixOf (n xs : List Char) :
    containsSub n xs = true ↔ n <:+: xs := by
  induction xs with
  | nil =>
    unfold containsSub
    rw [List.isEmpty_iff, List.infix_nil]
  | cons x xs ih =>
    unfold containsSub
    rw [Bool.or_eq_true, List.isPrefixOf_iff_prefix, ih, List.infix_cons_iff]

theorem lowerL_andSep : lowerL andSep = andSep := by decide

theorem containsSub_andSep_lowerL {xs : List Char} (h : containsSub andSep xs = true) :
    containsSub andSep (lowerL xs) = true := by
  rw [containsSub_iff_isInfixOf] at h ⊢
  obtain ⟨s, t, rfl⟩ := h
  refine ⟨lowerL s, lowerL t, ?_⟩
  simp only [lowerL, List.map_append]
  rw [show List.map Char.toLower andSep = andSep from lowerL_andSep]

/-- Claim C1: for every input containing `" and "`, `parse` splits the
lower-cased input on `" and "`, parses each stripped non-empty part
independently, drops the parts that fail, and returns the surviving
sub-specifications under `combined_criteria` in input order — or the
empty specification when every part fails.  On the reference input the
result is exactly the two documented specifications in order. -/
theorem c1_compound_split (now : Int) (s : String)
    (h : containsSub andSep s.data = true) :
    (parse now s =
      (let cs := (splitAnd (lowerL s.data)).filterMap fun part =>
         let part2 := trimChars part
         if part2.isEmpty then none else parseSingle now part2
       if cs.isEmpty then Spec.single {} else Spec.combined cs none)) ∧
    parse 0 "10 most recently added songs and 5 last played songs" =
      Spec.combined
        [{ sort_by := some "added_at", sort_order := some "desc", limit := some 10 },
         { sort_by := some "last_played_at", sort_order := some "desc", limit := some 5 }]
        none := by
  constructor
  · have h' := containsSub_andSep_lowerL h
    simp only [parse]
    rw [h']
    simp
  · decide

/-- Closed instance of C1 at a two-clause input where one clause fails. -/
theorem c1_witness :
    parse 0 "songs by adele and gibberish here" =
      Spec.combined [{ artist := some "adele" }] none :=
  have h := (c1_compound_split 0 "songs by adele and gibberish here" (by decide)).1
  by rw [h]; decide

/-- Claim C10: because `parse` splits on `" and "` before any pattern
matching, an input containing `" and "` never produces a single-clause
specification: the result is a (non-empty) `combined_criteria`
specification or the empty specification.  In particular a filter value
containing `" and "` is truncated at the first separator:
`parse "songs by simon and garfunkel"` keeps only `artist = "simon"`
and drops the unparseable clause `"garfunkel"`. -/
theorem c10_and_input_never_single_clause (now : Int) (s : String)
    (h : containsSub andSep s.data = true) :
    ((∃ cs, parse now s = Spec.combined cs none ∧ cs ≠ []) ∨ parse now s = Spec.single {}) ∧
    parse 0 "songs by simon and garfunkel" =
      Spec.combined [{ artist := some "simon" }] none := by
  constructor
  · have h' := containsSub_andSep_lowerL h
    simp only [parse]
    rw [h']
    simp only [if_true]
    set cs := (splitAnd (lowerL s.data)).filterMap fun part =>
      if (trimChars part).isEmpty = true then none else parseSingle now (trimChars part) with hcs
    cases hemp : cs.isEmpty with
    | true => right; simp [hemp]
    | false =>
      left
      refine ⟨cs, by simp [hemp], ?_⟩
      cases hnil : cs with
      | nil => rw [hnil] at hemp; cases hemp
      | cons a l => simp
  · decide

/-- Closed instance of C10's general part. -/
theorem c10_witness :
    (∃ cs, parse 0 "nonsense and more nonsense" = Spec.combined cs none ∧ cs ≠ []) ∨
      parse 0 "nonsense and more nonsense" = Spec.single {} :=
  (c10_and_input_never_single_clause 0 "nonsense and more nonsense" (by decide)).1

/-! ## C3: machinery for symbolic evaluation of the eight patterns -/

theorem searchL_cons_some {f : List Char → Option β} {x : Char} {xs : List Char} {v : β}
    (h : f (x :: xs) = some v) : searchL f (x :: xs) = some v := by
  unfold searchL
  rw [h]

theorem searchL_cons_none {f : List Char → Option β} {x : Char} {xs : List Char}
    (h : f (x :: xs) = none) : searchL f (x :: xs) = searchL f xs := by
  show (match f (x :: xs) with | some r => some r | none => searchL f xs) = searchL f xs
  rw [h]

theorem searchL_eq_none {f : List Char → Option β} {xs : List Char}
    (h : ∀ i, f (xs.drop i) = none) : searchL f xs = none := by
  induction xs with
  | nil => exact h 0
  | cons x t ih =>
    rw [searchL_cons_none (h 0)]
    exact ih fun i => h (i + 1)

theorem mruns_seq_plusGreedy_none {p : Char → Bool} {r : RE} {xs : List Char}
    (h : xs.takeWhile p = []) : mruns (.seq (.plusGreedy p) r) xs = [] := by
  simp [mruns, h]

theorem mruns_seq_lit_nil {l : List Char} {r : RE} {xs : List Char}
    (h : l.isPrefixOf xs = false) : mruns (.seq (.lit l) r) xs = [] := by
  simp [mruns, h]

theorem matchNumAt_nil (post : RE) : matchNumAt post [] = none := rfl

theorem matchNumAt_cons_not_digit {post : RE} {c : Char} {xs : List Char}
    (h : c.isDigit = false) : matchNumAt post (c :: xs) = none := by
  simp [matchNumAt, takeWhile_cons_false h]

theorem matchNumAt_none_of_all_not_digit {post : RE} {xs : List Char}
    (h : ∀ c ∈ xs, c.isDigit = false) : matchNumAt post xs = none := by
  cases xs with
  | nil => exact matchNumAt_nil post
  | cons c t => exact matchNumAt_cons_not_digit (h c (List.mem_cons_self c t))

theorem searchL_matchNum_nodigit {post : RE} {xs : List Char}
    (h : ∀ c ∈ xs, c.isDigit = false) : searchL (matchNumAt post) xs = none := by
  induction xs with
  | nil => exact matchNumAt_nil post
  | cons c t ih =>
    rw [searchL_cons_none (matchNumAt_cons_not_digit (h c (List.mem_cons_self c t)))]
    exact ih fun x hx => h x (List.mem_cons_of_mem c hx)

theorem range_map_sub_head {m : Nat} (h : 0 < m) :
    ∃ rest, (List.range m).map (fun j => m - j) = m :: rest := by
  cases m with
  | zero => omega
  | succ k =>
    refine ⟨(List.map Nat.succ (List.range k)).map (fun j => k + 1 - j), ?_⟩
    rw [List.range_succ_eq_map, List.map_cons, Nat.sub_zero]

theorem matchNumAt_digits_none {post : RE} {ds : List Char} {c : Char} {t : List Char}
    (hds : ∀ x ∈ ds, x.isDigit = true) (hc : c.isDigit = false)
    (hpost : mruns post (c :: t) = [])
    (hdig : ∀ (d : Char) (r : List Char), d.isDigit = true → mruns post (d :: r) = []) :
    matchNumAt post (ds ++ c :: t) = none := by
  have htw : (ds ++ c :: t).takeWhile Char.isDigit = ds := by
    rw [takeWhile_append_all hds, takeWhile_cons_false hc, List.append_nil]
  simp only [matchNumAt, htw]
  apply findSome?_eq_none_of
  intro i hi
  obtain ⟨j, hj, rfl⟩ := List.mem_map.mp hi
  have hjlt : j < ds.length := List.mem_range.mp hj
  by_cases hieq : ds.length - j = ds.length
  · rw [hieq, List.drop_left, hpost]
    simp
  · have hlt : ds.length - j < ds.length := by omega
    rw [List.drop_append_of_le_length (Nat.le_of_lt hlt),
      List.drop_eq_getElem_cons hlt, List.cons_append,
      hdig _ _ (hds _ (List.getElem_mem hlt))]
    simp

theorem matchNumAt_digits_some {post : RE} {ds : List Char} {c : Char} {t : List Char}
    (hds : ∀ x ∈ ds, x.isDigit = true) (hne : ds ≠ []) (hc : c.isDigit = false)
    (hpost : mruns post (c :: t) ≠ []) :
    matchNumAt post (ds ++ c :: t) = some (digitsToNat ds) := by
  have htw : (ds ++ c :: t).takeWhile Char.isDigit = ds := by
    rw [takeWhile_append_all hds, takeWhile_cons_false hc, List.append_nil]
  simp only [matchNumAt, htw]
  obtain ⟨rest, hr⟩ := range_map_sub_head (List.length_pos.mpr hne)
  rw [hr, List.findSome?_cons, List.drop_left, List.take_left, if_pos hpost]

theorem searchL_matchNum_digits_some {post : RE} {ds : List Char} {c : Char} {t : List Char}
    (hds : ∀ x ∈ ds, x.isDigit = true) (hne : ds ≠ []) (hc : c.isDigit = false)
    (hpost : mruns post (c :: t) ≠ []) :
    searchL (matchNumAt post) (ds ++ c :: t) = some (digitsToNat ds) := by
  cases ds with
  | nil => exact absurd rfl hne
  | cons d rest =>
    rw [List.cons_append]
    apply searchL_cons_some
    rw [← List.cons_append]
    exact matchNumAt_digits_some hds hne hc hpost

theorem searchL_matchNum_digits_none {post : RE} {ds : List Char} {c : Char} {t : List Char}
    (hds : ∀ x ∈ ds, x.isDigit = true) (hc : c.isDigit = false)
    (hpost : mruns post (c :: t) = [])
    (hdig : ∀ (d : Char) (r : List Char), d.isDigit = true → mruns post (d :: r) = [])
    (hbase : searchL (matchNumAt post) (c :: t) = none) :
    searchL (matchNumAt post) (ds ++ c :: t) = none := by
  induction ds with
  | nil => exact hbase
  | cons d rest ih =>
    rw [List.cons_append]
    rw [searchL_cons_none (by
      rw [← List.cons_append]
      exact matchNumAt_digits_none hds hc hpost hdig)]
    exact ih fun x hx => hds x (List.mem_cons_of_mem d hx)

theorem mruns_ws1_seq_digit_none {r : RE} {d : Char} {xs : List Char}
    (hd : d.isDigit = true) : mruns (.seq ws1 r) (d :: xs) = [] := by
  apply mruns_seq_plusGreedy_none
  exact takeWhile_cons_false (by rw [show wsP d = d.isWhitespace from rfl, not_ws_of_isDigit hd])

theorem lowerL_digits {ds : List Char} (h : ∀ c ∈ ds, c.isDigit = true) :
    lowerL ds = ds := by
  induction ds with
  | nil => rfl
  | cons d rest ih =>
    show d.toLower :: lowerL rest = d :: rest
    rw [toLower_of_isDigit (h d (List.mem_cons_self d rest)),
      ih fun c hc => h c (List.mem_cons_of_mem d hc)]

theorem lowerL_lower_or_space {A : List Char} (h : ∀ c ∈ A, c.isLower = true ∨ c = ' ') :
    lowerL A = A := by
  induction A with
  | nil => rfl
  | cons a rest ih =>
    show a.toLower :: lowerL rest = a :: rest
    have ha : a.toLower = a := by
      rcases h a (List.mem_cons_self a rest) with hl | hsp
      · exact toLower_of_isLower hl
      · rw [hsp]; decide
    rw [ha, ih fun c hc => h c (List.mem_cons_of_mem a hc)]

theorem lowerL_append (xs ys : List Char) : lowerL (xs ++ ys) = lowerL xs ++ lowerL ys :=
  List.map_append Char.toLower xs ys

theorem containsSub_cons_eq (n : List Char) (x : Char) (xs : List Char) :
    containsSub n (x :: xs) = (n.isPrefixOf (x :: xs) || containsSub n xs) := rfl

theorem containsAnd_digits_append {ds t : List Char} (h : ∀ c ∈ ds, c.isDigit = true) :
    containsSub andSep (ds ++ t) = containsSub andSep t := by
  induction ds with
  | nil => rfl
  | cons d rest ih =>
    rw [List.cons_append, containsSub_cons_eq]
    have hp : andSep.isPrefixOf (d :: (rest ++ t)) = false := by
      show ((' ' == d) && (['a', 'n', 'd', ' '].isPrefixOf (rest ++ t))) = false
      rw [not_space_of_isDigit (h d (List.mem_cons_self d rest)), Bool.false_and]
    rw [hp, Bool.false_or]
    exact ih fun c hc => h c (List.mem_cons_of_mem d hc)

theorem parse_of_no_and {now : Int} {s : String}
    (h : containsSub andSep (lowerL s.data) = false) :
    parse now s = .single ((parseSingle now (lowerL s.data)).getD {}) := by
  simp only [parse]
  rw [h]
  simp

theorem parseSingle_recentlyAdded {now : Int} {xs : List Char} {n : Nat}
    (h : searchL (matchNumAt postRecentlyAdded) xs = some n) :
    parseSingle now xs =
      some { sort_by := some "added_at", sort_order := some "desc", limit := some n } := by
  unfold parseSingle
  rw [h]

theorem parseSingle_lastPlayed {now : Int} {xs : List Char} {n : Nat}
    (h1 : searchL (matchNumAt postRecentlyAdded) xs = none)
    (h2 : searchL (matchNumAt postLastPlayed) xs = some n) :
    parseSingle now xs =
      some { sort_by := some "last_played_at", sort_order := some "desc", limit := some n } := by
  unfold parseSingle
  rw [h1, h2]

theorem parseSingle_mostPlayed {now : Int} {xs : List Char} {n : Nat}
    (h1 : searchL (matchNumAt postRecentlyAdded) xs = none)
    (h2 : searchL (matchNumAt postLastPlayed) xs = none)
    (h3 : searchL (matchNumAt postMostPlayed) xs = some n) :
    parseSingle now xs =
      some { sort_by := some "play_count", sort_order := some "desc", limit := some n } := by
  unfold parseSingle
  rw [h1, h2, h3]

theorem parseSingle_artist {now : Int} {xs : List Char} {a : List Char}
    (h1 : searchL (matchNumAt postRecentlyAdded) xs = none)
    (h2 : searchL (matchNumAt postLastPlayed) xs = none)
    (h3 : searchL (matchNumAt postMostPlayed) xs = none)
    (h4 : searchL (matchFilterAt preArtist postFilter) xs = some a) :
    parseSingle now xs = some { artist := some (String.mk (trimChars a)) } := by
  unfold parseSingle
  rw [h1, h2, h3, h4]

theorem parseSingle_album {now : Int} {xs : List Char} {a : List Char}
    (h1 : searchL (matchNumAt postRecentlyAdded) xs = none)
    (h2 : searchL (matchNumAt postLastPlayed) xs = none)
    (h3 : searchL (matchNumAt postMostPlayed) xs = none)
    (h4 : searchL (matchFilterAt preArtist postFilter) xs = none)
    (h5 : searchL (matchFilterAt preAlbum postFilter) xs = some a) :
    parseSingle now xs = some { album := some (String.mk (trimChars a)) } := by
  unfold parseSingle
  rw [h1, h2, h3, h4, h5]

theorem parseSingle_genre {now : Int} {xs : List Char} {a : List Char}
    (h1 : searchL (matchNumAt postRecentlyAdded) xs = none)
    (h2 : searchL (matchNumAt postLastPlayed) xs = none)
    (h3 : searchL (matchNumAt postMostPlayed) xs = none)
    (h4 : searchL (matchFilterAt preArtist postFilter) xs = none)
    (h5 : searchL (matchFilterAt preAlbum postFilter) xs = none)
    (h6 : searchL (matchFilterAt preGenre postFilter) xs = some a) :
    parseSingle now xs = some { genre := some (String.mk (trimChars a)) } := by
  unfold parseSingle
  rw [h1, h2, h3, h4, h5, h6]

theorem parseSingle_addedDays {now : Int} {xs : List Char} {d : Nat}
    (h1 : searchL (matchNumAt postRecentlyAdded) xs = none)
    (h2 : searchL (matchNumAt postLastPlayed) xs = none)
    (h3 : searchL (matchNumAt postMostPlayed) xs = none)
    (h4 : searchL (matchFilterAt preArtist postFilter) xs = none)
    (h5 : searchL (matchFilterAt preAlbum postFilter) xs = none)
    (h6 : searchL (matchFilterAt preGenre postFilter) xs = none)
    (h7 : searchL (matchMidNumAt preAddedDays postDays) xs = some d) :
    parseSingle now xs =
      some { added_after := some (now - (d : Int) * oneDay), sort_by := some "added_at",
             sort_order := some "desc" } := by
  unfold parseSingle
  rw [h1, h2, h3, h4, h5, h6, h7]

theorem parseSingle_playedDays {now : Int} {xs : List Char} {d : Nat}
    (h1 : searchL (matchNumAt postRecentlyAdded) xs = none)
    (h2 : searchL (matchNumAt postLastPlayed) xs = none)
    (h3 : searchL (matchNumAt postMostPlayed) xs = none)
    (h4 : searchL (matchFilterAt preArtist postFilter) xs = none)
    (h5 : searchL (matchFilterAt preAlbum postFilter) xs = none)
    (h6 : searchL (matchFilterAt preGenre postFilter) xs = none)
    (h7 : searchL (matchMidNumAt preAddedDays postDays) xs = none)
    (h8 : searchL (matchMidNumAt prePlayedDays postDays) xs = some d) :
    parseSingle now xs =
      some { played_after := some (now - (d : Int) * oneDay), sort_by := some "last_played_at",
             sort_order := some "desc" } := by
  unfold parseSingle
  rw [h1, h2, h3, h4, h5, h6, h7, h8]

theorem phrase_most_recently_added (now : Int) (ds : List Char) (hne : ds ≠ [])
    (hds : ∀ c ∈ ds, c.isDigit = true) :
    parse now (String.mk (ds ++ " most recently added songs".data)) =
      .single { sort_by := some "added_at", sort_order := some "desc",
                limit := some (digitsToNat ds) } := by
  have hlow : lowerL (ds ++ " most recently added songs".data) =
      ds ++ " most recently added songs".data := by
    rw [lowerL_append, lowerL_digits hds]
    rw [show lowerL " most recently added songs".data =
      " most recently added songs".data from by decide]
  have hand : containsSub andSep
      (lowerL (String.mk (ds ++ " most recently added songs".data)).data) = false := by
    show containsSub andSep (lowerL (ds ++ " most recently added songs".data)) = false
    rw [hlow, containsAnd_digits_append hds]
    decide
  rw [parse_of_no_and hand]
  show Spec.single ((parseSingle now
    (lowerL (ds ++ " most recently added songs".data))).getD {}) = _
  rw [hlow]
  rw [parseSingle_recentlyAdded
    (searchL_matchNum_digits_some hds hne (by decide) (by decide))]
  rfl

theorem phrase_recently_added (now : Int) (ds : List Char) (hne : ds ≠ [])
    (hds : ∀ c ∈ ds, c.isDigit = true) :
    parse now (String.mk (ds ++ " recently added songs".data)) =
      .single { sort_by := some "added_at", sort_order := some "desc",
                limit := some (digitsToNat ds) } := by
  have hlow : lowerL (ds ++ " recently added songs".data) =
      ds ++ " recently added songs".data := by
    rw [lowerL_append, lowerL_digits hds]
    rw [show lowerL " recently added songs".data = " recently added songs".data from by decide]
  have hand : containsSub andSep
      (lowerL (String.mk (ds ++ " recently added songs".data)).data) = false := by
    show containsSub andSep (lowerL (ds ++ " recently added songs".data)) = false
    rw [hlow, containsAnd_digits_append hds]
    decide
  rw [parse_of_no_and hand]
  show Spec.single ((parseSingle now
    (lowerL (ds ++ " recently added songs".data))).getD {}) = _
  rw [hlow]
  rw [parseSingle_recentlyAdded
    (searchL_matchNum_digits_some hds hne (by decide) (by decide))]
  rfl

theorem phrase_most_recently_played (now : Int) (ds : List Char) (hne : ds ≠ [])
    (hds : ∀ c ∈ ds, c.isDigit = true) :
    parse now (String.mk (ds ++ " most recently played songs".data)) =
      .single { sort_by := some "last_played_at", sort_order := some "desc",
                limit := some (digitsToNat ds) } := by
  have hlow : lowerL (ds ++ " most recently played songs".data) =
      ds ++ " most recently played songs".data := by
    rw [lowerL_append, lowerL_digits hds]
    rw [show lowerL " most recently played songs".data =
      " most recently played songs".data from by decide]
  have hand : containsSub andSep
      (lowerL (String.mk (ds ++ " most recently played songs".data)).data) = false := by
    show containsSub andSep (lowerL (ds ++ " most recently played songs".data)) = false
    rw [hlow, containsAnd_digits_append hds]
    decide
  rw [parse_of_no_and hand]
  show Spec.single ((parseSingle now
    (lowerL (ds ++ " most recently played songs".data))).getD {}) = _
  rw [hlow]
  rw [parseSingle_lastPlayed
    (searchL_matchNum_digits_none hds (by decide) (by decide)
      (fun d r hd => mruns_ws1_seq_digit_none hd) (by decide))
    (searchL_matchNum_digits_some hds hne (by decide) (by decide))]
  rfl

theorem phrase_recently_played (now : Int) (ds : List Char) (hne : ds ≠ [])
    (hds : ∀ c ∈ ds, c.isDigit = true) :
    parse now (String.mk (ds ++ " recently played songs".data)) =
      .single { sort_by := some "last_played_at", sort_order := some "desc",
                limit := some (digitsToNat ds) } := by
  have hlow : lowerL (ds ++ " recently played songs".data) =
      ds ++ " recently played songs".data := by
    rw [lowerL_append, lowerL_digits hds]
    rw [show lowerL " recently played songs".data = " recently played songs".data from by decide]
  have hand : containsSub andSep
      (lowerL (String.mk (ds ++ " recently played songs".data)).data) = false := by
    show containsSub andSep (lowerL (ds ++ " recently played songs".data)) = false
    rw [hlow, containsAnd_digits_append hds]
    decide
  rw [parse_of_no_and hand]
  show Spec.single ((parseSingle now
    (lowerL (ds ++ " recently played songs".data))).getD {}) = _
  rw [hlow]
  rw [parseSingle_lastPlayed
    (searchL_matchNum_digits_none hds (by decide) (by decide)
      (fun d r hd => mruns_ws1_seq_digit_none hd) (by decide))
    (searchL_matchNum_digits_some hds hne (by decide) (by decide))]
  rfl

theorem phrase_last_played (now : Int) (ds : List Char) (hne : ds ≠ [])
    (hds : ∀ c ∈ ds, c.isDigit = true) :
    parse now (String.mk (ds ++ " last played songs".data)) =
      .single { sort_by := some "last_played_at", sort_order := some "desc",
                limit := some (digitsToNat ds) } := by
  have hlow : lowerL (ds ++ " last played songs".data) = ds ++ " last played songs".data := by
    rw [lowerL_append, lowerL_digits hds]
    rw [show lowerL " last played songs".data = " last played songs".data from by decide]
  have hand : containsSub andSep
      (lowerL (String.mk (ds ++ " last played songs".data)).data) = false := by
    show containsSub andSep (lowerL (ds ++ " last played songs".data)) = false
    rw [hlow, containsAnd_digits_append hds]
    decide
  rw [parse_of_no_and hand]
  show Spec.single ((parseSingle now
    (lowerL (ds ++ " last played songs".data))).getD {}) = _
  rw [hlow]
  rw [parseSingle_lastPlayed
    (searchL_matchNum_digits_none hds (by decide) (by decide)
      (fun d r hd => mruns_ws1_seq_digit_none hd) (by decide))
    (searchL_matchNum_digits_some hds hne (by decide) (by decide))]
  rfl

theorem phrase_most_played (now : Int) (ds : List Char) (hne : ds ≠ [])
    (hds : ∀ c ∈ ds, c.isDigit = true) :
    parse now (String.mk (ds ++ " most played songs".data)) =
      .single { sort_by := some "play_count", sort_order := some "desc",
                limit := some (digitsToNat ds) } := by
  have hlow : lowerL (ds ++ " most played songs".data) = ds ++ " most played songs".data := by
    rw [lowerL_append, lowerL_digits hds]
    rw [show lowerL " most played songs".data = " most played songs".data from by decide]
  have hand : containsSub andSep
      (lowerL (String.mk (ds ++ " most played songs".data)).data) = false := by
    show containsSub andSep (lowerL (ds ++ " most played songs".data)) = false
    rw [hlow, containsAnd_digits_append hds]
    decide
  rw [parse_of_no_and hand]
  show Spec.single ((parseSingle now
    (lowerL (ds ++ " most played songs".data))).getD {}) = _
  rw [hlow]
  rw [parseSingle_mostPlayed
    (searchL_matchNum_digits_none hds (by decide) (by decide)
      (fun d r hd => mruns_ws1_seq_digit_none hd) (by decide))
    (searchL_matchNum_digits_none hds (by decide) (by decide)
      (fun d r hd => mruns_ws1_seq_digit_none hd) (by decide))
    (searchL_matchNum_digits_some hds hne (by decide) (by decide))]
  rfl

/-! ## C3: machinery for the three filter patterns -/

theorem dotP_of_class {c : Char} (h : c.isLower = true ∨ c = ' ') : dotP c = true := by
  rcases h with hl | rfl
  · have hne : c ≠ '\n' := by
      intro heq
      rw [heq] at hl
      exact absurd hl (by decide)
    simp [dotP, hne]
  · decide

theorem class_ws_eq_space {c : Char} (hcl : c.isLower = true ∨ c = ' ')
    (hws : c.isWhitespace = true) : c = ' ' := by
  rcases hcl with hl | rfl
  · rw [not_ws_of_isLower hl] at hws
    cases hws
  · rfl

theorem class_not_digit {c : Char} (hcl : c.isLower = true ∨ c = ' ') :
    c.isDigit = false := by
  rcases hcl with hl | rfl
  · exact not_isDigit_of_isLower hl
  · decide

theorem flatMap_ne_nil_exists {l : List α} {f : α → List β} (h : l.flatMap f ≠ []) :
    ∃ a ∈ l, f a ≠ [] := by
  induction l with
  | nil => exact absurd rfl h
  | cons x xs ih =>
    rw [List.flatMap_cons] at h
    by_cases hx : f x = []
    · rw [hx, List.nil_append] at h
      obtain ⟨a, ha, hfa⟩ := ih h
      exact ⟨a, List.mem_cons_of_mem x ha, hfa⟩
    · exact ⟨x, List.mem_cons_self x xs, hx⟩

theorem mruns_ws0_eos_all_ws {xs : List Char} (h : mruns (.seq ws0 .eos) xs ≠ []) :
    ∀ c ∈ xs, wsP c = true := by
  rw [show mruns (.seq ws0 .eos) xs = (mruns ws0 xs).flatMap (mruns .eos) from rfl] at h
  obtain ⟨r, hr, hne⟩ := flatMap_ne_nil_exists h
  rw [show mruns ws0 xs = (List.range ((xs.takeWhile wsP).length + 1)).map
    (fun j => xs.drop ((xs.takeWhile wsP).length - j)) from rfl] at hr
  obtain ⟨j, hj, rfl⟩ := List.mem_map.mp hr
  have hre : xs.drop ((xs.takeWhile wsP).length - j) = [] := by
    cases hd : xs.drop ((xs.takeWhile wsP).length - j) with
    | nil => rfl
    | cons y ys =>
      exfalso
      apply hne
      rw [show mruns RE.eos (xs.drop ((xs.takeWhile wsP).length - j)) =
        (if (xs.drop ((xs.takeWhile wsP).length - j)).isEmpty then [[]] else []) from rfl, hd]
      rfl
  have hlen : xs.length ≤ (xs.takeWhile wsP).length - j := List.drop_eq_nil_iff.mp hre
  have hmle : (xs.takeWhile wsP).length ≤ xs.length := (List.takeWhile_prefix wsP).length_le
  have heq : (xs.takeWhile wsP).length = xs.length := by omega
  exact takeWhile_all_of_length_eq heq

theorem mruns_ws1_lit_spec {l : List Char} {xs : List Char}
    (h : mruns (.seq ws1 (.lit l)) xs ≠ []) :
    ∃ k, 1 ≤ k ∧ k ≤ (xs.takeWhile wsP).length ∧ l.isPrefixOf (xs.drop k) = true := by
  rw [show mruns (.seq ws1 (.lit l)) xs = (mruns ws1 xs).flatMap (mruns (.lit l)) from rfl] at h
  obtain ⟨r, hr, hne⟩ := flatMap_ne_nil_exists h
  rw [show mruns ws1 xs = (List.range ((xs.takeWhile wsP).length)).map
    (fun j => xs.drop ((xs.takeWhile wsP).length - j)) from rfl] at hr
  obtain ⟨j, hj, rfl⟩ := List.mem_map.mp hr
  have hjlt : j < (xs.takeWhile wsP).length := List.mem_range.mp hj
  refine ⟨(xs.takeWhile wsP).length - j, by omega, by omega, ?_⟩
  cases hp : l.isPrefixOf (xs.drop ((xs.takeWhile wsP).length - j)) with
  | true => rfl
  | false =>
    exfalso
    apply hne
    rw [show mruns (RE.lit l) (xs.drop ((xs.takeWhile wsP).length - j)) =
      (if l.isPrefixOf (xs.drop ((xs.takeWhile wsP).length - j)) then
        [(xs.drop ((xs.takeWhile wsP).length - j)).drop l.length] else []) from rfl, hp]
    rfl

theorem prefix_of_suffix_isInfix {n s A : List Char} (h1 : n <+: s) (h2 : s <:+ A) :
    n <:+: A := by
  obtain ⟨r, hr⟩ := h1
  obtain ⟨p, hp⟩ := h2
  exact ⟨p, r, by rw [← hp, ← hr, List.append_assoc]⟩

theorem drop_getLast?_eq {A : List Char} {i : Nat} (h : A.drop i ≠ []) :
    A.getLast? = (A.drop i).getLast? := by
  conv_lhs => rw [← List.take_append_drop i A]
  rw [List.getLast?_append, List.getLast?_eq_getLast (A.drop i) h]
  rfl

/-- The lazy capture together with its boundary: on a clean value `A`
(non-empty; lowercase letters and spaces; no `" and"` inside `' ' :: A`;
no trailing space) the lazy `(.+?)(?:\s+and|\s*$)` consumes all of `A`. -/
theorem capFilter_full {A : List Char} (hne : A ≠ [])
    (hcl : ∀ c ∈ A, c.isLower = true ∨ c = ' ')
    (h3 : containsSub [' ', 'a', 'n', 'd'] (' ' :: A) = false)
    (hlast : A.getLast? ≠ some ' ') :
    (((List.range ((A.takeWhile dotP).length)).map (fun j => j + 1)).findSome? fun i =>
      if mruns postFilter (A.drop i) ≠ [] then some (A.take i) else none) = some A := by
  have htw : A.takeWhile dotP = A := takeWhile_eq_self_of_all fun c hc => dotP_of_class (hcl c hc)
  rw [htw]
  have hj : A.length ∈ (List.range A.length).map (fun j => j + 1) := by
    have hpos : 0 < A.length := List.length_pos.mpr hne
    exact List.mem_map.mpr ⟨A.length - 1, List.mem_range.mpr (by omega), by omega⟩
  have hv : (if mruns postFilter (A.drop A.length) ≠ [] then some (A.take A.length) else none) =
      some A := by
    rw [List.drop_length, List.take_length, if_pos (by decide)]
  refine findSome?_eq_of_unique hj hv ?_
  intro i him hineq
  obtain ⟨j, hjr, rfl⟩ := List.mem_map.mp him
  have hjlt : j < A.length := List.mem_range.mp hjr
  have hilt : j + 1 < A.length := by
    rcases Nat.lt_or_ge (j + 1) A.length with hlt | hge
    · exact hlt
    · exact absurd (by omega : j + 1 = A.length) hineq
  have hxs_ne : A.drop (j + 1) ≠ [] := by
    intro hd
    have := List.drop_eq_nil_iff.mp hd
    omega
  have hp1 : mruns (.seq ws1 (reStr "and")) (A.drop (j + 1)) = [] := by
    by_contra hcon
    obtain ⟨k, hk1, hkm, hkpre⟩ := mruns_ws1_lit_spec hcon
    have hkxs : k - 1 < (A.drop (j + 1)).length :=
      lt_of_lt_of_le (by omega) (List.takeWhile_prefix wsP).length_le
    have hwsk : wsP ((A.drop (j + 1)).get ⟨k - 1, hkxs⟩) = true :=
      takeWhile_pred_getElem (by omega) hkxs
    have hmemA : (A.drop (j + 1)).get ⟨k - 1, hkxs⟩ ∈ A :=
      List.drop_subset _ _ (List.get_mem _ _ _)
    have hsp : (A.drop (j + 1)).get ⟨k - 1, hkxs⟩ = ' ' :=
      class_ws_eq_space (hcl _ hmemA) hwsk
    have hdk : (A.drop (j + 1)).drop (k - 1) = ' ' :: (A.drop (j + 1)).drop k := by
      rw [List.drop_eq_getElem_cons hkxs, show k - 1 + 1 = k from by omega]
      congr 1
    have hpre4 : [' ', 'a', 'n', 'd'].isPrefixOf ((A.drop (j + 1)).drop (k - 1)) = true := by
      rw [hdk]
      show ((' ' == ' ') && (['a', 'n', 'd'].isPrefixOf ((A.drop (j + 1)).drop k))) = true
      rw [show (['a', 'n', 'd'] : List Char) = "and".data from rfl, hkpre]
      rfl
    have hinf : [' ', 'a', 'n', 'd'] <:+: (' ' :: A) := by
      have h1 : [' ', 'a', 'n', 'd'] <+: (A.drop (j + 1)).drop (k - 1) :=
        List.isPrefixOf_iff_prefix.mp hpre4
      have h2 : (A.drop (j + 1)).drop (k - 1) <:+ A := by
        rw [List.drop_drop]
        exact List.drop_suffix _ _
      exact (prefix_of_suffix_isInfix h1 h2).trans (List.suffix_cons ' ' A).isInfix
    have := (containsSub_iff_isInfixOf [' ', 'a', 'n', 'd'] (' ' :: A)).mpr hinf
    rw [h3] at this
    cases this
  have hp2 : mruns (.seq ws0 .eos) (A.drop (j + 1)) = [] := by
    by_contra hcon
    have hall := mruns_ws0_eos_all_ws hcon
    have hgl : A.getLast? = ((A.drop (j + 1)).getLast hxs_ne) := by
      rw [drop_getLast?_eq hxs_ne, List.getLast?_eq_getLast _ hxs_ne]
    have hmem : (A.drop (j + 1)).getLast hxs_ne ∈ A.drop (j + 1) := List.getLast_mem hxs_ne
    have hws' : wsP ((A.drop (j + 1)).getLast hxs_ne) = true := hall _ hmem
    have hsp : (A.drop (j + 1)).getLast hxs_ne = ' ' :=
      class_ws_eq_space (hcl _ (List.drop_subset _ _ hmem)) hws'
    rw [hsp] at hgl
    exact hlast hgl
  have hmr : mruns postFilter (A.drop (j + 1)) = [] := by
    rw [show mruns postFilter (A.drop (j + 1)) =
      mruns (.seq ws1 (reStr "and")) (A.drop (j + 1)) ++
        mruns (.seq ws0 .eos) (A.drop (j + 1)) from rfl, hp1, hp2]
    rfl
  rw [if_neg (show ¬(mruns postFilter (A.drop (j + 1)) ≠ []) from fun hcon => hcon hmr)]

theorem mruns_seq_eq (a b : RE) (xs : List Char) :
    mruns (.seq a b) xs = (mruns a xs).flatMap (mruns b) := rfl

theorem flatMap_singleton (f : α → List β) (x : α) : [x].flatMap f = f x := by
  simp

theorem matchFilterAt_none_of_pre_nil {pre post : RE} {xs : List Char}
    (h : mruns pre xs = []) : matchFilterAt pre post xs = none := by
  simp [matchFilterAt, h]

theorem not_isPrefixOf_of_not_containsSub {n A : List Char} (h : containsSub n A = false) (j : Nat) :
    n.isPrefixOf (A.drop j) = false := by
  cases hp : n.isPrefixOf (A.drop j) with
  | false => rfl
  | true =>
    exfalso
    have hinf : n <:+: A :=
      prefix_of_suffix_isInfix (List.isPrefixOf_iff_prefix.mp hp) (List.drop_suffix j A)
    have := (containsSub_iff_isInfixOf n A).mpr hinf
    rw [h] at this
    cases this

theorem all_not_digit_append {t A : List Char} (ht : ∀ c ∈ t, c.isDigit = false)
    (hA : ∀ c ∈ A, c.isDigit = false) : ∀ c ∈ t ++ A, c.isDigit = false :=
  fun c hc => (List.mem_append.mp hc).elim (ht c) (hA c)

theorem head_class_not_ws {a : Char} {A' : List Char}
    (hcl : ∀ c ∈ a :: A', c.isLower = true ∨ c = ' ')
    (hhd : (a :: A').head? ≠ some ' ') : wsP a = false := by
  have ha : a ≠ ' ' := fun heq => hhd (by rw [heq]; rfl)
  rcases hcl a (List.mem_cons_self a A') with hl | hsp
  · exact not_ws_of_isLower hl
  · exact absurd hsp ha

theorem trimChars_id {A : List Char} (hcl : ∀ c ∈ A, c.isLower = true ∨ c = ' ')
    (hhd : A.head? ≠ some ' ') (hlast : A.getLast? ≠ some ' ') : trimChars A = A := by
  cases A with
  | nil => rfl
  | cons a A' =>
    have hwa : Char.isWhitespace a = false := head_class_not_ws hcl hhd
    have h1 : (a :: A').dropWhile Char.isWhitespace = a :: A' := by
      rw [List.dropWhile_cons, hwa]
      simp
    cases hrev : (a :: A').reverse with
    | nil => exact absurd (List.reverse_eq_nil_iff.mp hrev) (by simp)
    | cons b B =>
      have hb : (a :: A').getLast? = some b := by
        rw [← List.head?_reverse, hrev]
        rfl
      have hbm : b ∈ a :: A' := by
        have : b ∈ (a :: A').reverse := by rw [hrev]; exact List.mem_cons_self b B
        exact List.mem_reverse.mp this
      have hbs : b ≠ ' ' := fun heq => hlast (by rw [hb, heq])
      have hwb : Char.isWhitespace b = false := by
        rcases hcl b hbm with hl | hsp
        · exact not_ws_of_isLower hl
        · exact absurd hsp hbs
      have h2 : (b :: B).dropWhile Char.isWhitespace = b :: B := by
        rw [List.dropWhile_cons, hwb]
        simp
      unfold trimChars
      rw [h1, hrev, h2, ← hrev, List.reverse_reverse]

theorem mruns_preArtist_cons {a : Char} {A' : List Char} (hwa : wsP a = false) :
    mruns preArtist ("songs by ".data ++ a :: A') = [a :: A'] := by
  rw [show preArtist = .seq (reStr "songs") (.seq ws1 (.seq (reStr "by") ws1)) from rfl]
  rw [mruns_seq_eq, show mruns (reStr "songs") ("songs by ".data ++ a :: A') =
    [' ' :: 'b' :: 'y' :: ' ' :: a :: A'] from rfl, flatMap_singleton]
  rw [mruns_seq_eq, show mruns ws1 (' ' :: 'b' :: 'y' :: ' ' :: a :: A') = ['b' :: 'y' :: ' ' :: a :: A'] from rfl, flatMap_singleton]
  rw [mruns_seq_eq, show mruns (reStr "by") ('b' :: 'y' :: ' ' :: a :: A') = [' ' :: a :: A'] from rfl,
    flatMap_singleton]
  have htw : (' ' :: a :: A').takeWhile wsP = [' '] := by
    rw [List.takeWhile_cons, show wsP ' ' = true from rfl]
    simp [List.takeWhile_cons, hwa]
  show (List.range (((' ' :: a :: A').takeWhile wsP).length)).map
    (fun j => (' ' :: a :: A').drop (((' ' :: a :: A').takeWhile wsP).length - j)) = [a :: A']
  rw [htw]
  rfl

theorem mruns_preAlbum_cons {a : Char} {A' : List Char} (hwa : wsP a = false) :
    mruns preAlbum ("songs from ".data ++ a :: A') = [a :: A'] := by
  rw [show preAlbum = .seq (reStr "songs") (.seq ws1 (.seq (reStr "from") ws1)) from rfl]
  rw [mruns_seq_eq, show mruns (reStr "songs") ("songs from ".data ++ a :: A') =
    [' ' :: 'f' :: 'r' :: 'o' :: 'm' :: ' ' :: a :: A'] from rfl, flatMap_singleton]
  rw [mruns_seq_eq, show mruns ws1 (' ' :: 'f' :: 'r' :: 'o' :: 'm' :: ' ' :: a :: A') = ['f' :: 'r' :: 'o' :: 'm' :: ' ' :: a :: A'] from rfl, flatMap_singleton]
  rw [mruns_seq_eq, show mruns (reStr "from") ('f' :: 'r' :: 'o' :: 'm' :: ' ' :: a :: A') = [' ' :: a :: A'] from rfl,
    flatMap_singleton]
  have htw : (' ' :: a :: A').takeWhile wsP = [' '] := by
    rw [List.takeWhile_cons, show wsP ' ' = true from rfl]
    simp [List.takeWhile_cons, hwa]
  show (List.range (((' ' :: a :: A').takeWhile wsP).length)).map
    (fun j => (' ' :: a :: A').drop (((' ' :: a :: A').takeWhile wsP).length - j)) = [a :: A']
  rw [htw]
  rfl

theorem mruns_preGenre_cons {a : Char} {A' : List Char} (hwa : wsP a = false) :
    mruns preGenre ("songs in ".data ++ a :: A') = [a :: A'] := by
  rw [show preGenre = .seq (reStr "songs") (.seq ws1 (.seq (reStr "in") ws1)) from rfl]
  rw [mruns_seq_eq, show mruns (reStr "songs") ("songs in ".data ++ a :: A') =
    [' ' :: 'i' :: 'n' :: ' ' :: a :: A'] from rfl, flatMap_singleton]
  rw [mruns_seq_eq, show mruns ws1 (' ' :: 'i' :: 'n' :: ' ' :: a :: A') = ['i' :: 'n' :: ' ' :: a :: A'] from rfl, flatMap_singleton]
  rw [mruns_seq_eq, show mruns (reStr "in") ('i' :: 'n' :: ' ' :: a :: A') = [' ' :: a :: A'] from rfl,
    flatMap_singleton]
  have htw : (' ' :: a :: A').takeWhile wsP = [' '] := by
    rw [List.takeWhile_cons, show wsP ' ' = true from rfl]
    simp [List.takeWhile_cons, hwa]
  show (List.range (((' ' :: a :: A').takeWhile wsP).length)).map
    (fun j => (' ' :: a :: A').drop (((' ' :: a :: A').takeWhile wsP).length - j)) = [a :: A']
  rw [htw]
  rfl

theorem searchL_artist_success {A : List Char} (hne : A ≠ [])
    (hcl : ∀ c ∈ A, c.isLower = true ∨ c = ' ')
    (h3 : containsSub [' ', 'a', 'n', 'd'] (' ' :: A) = false)
    (hhd : A.head? ≠ some ' ') (hlast : A.getLast? ≠ some ' ') :
    searchL (matchFilterAt preArtist postFilter) ("songs by ".data ++ A) = some A := by
  cases A with
  | nil => exact absurd rfl hne
  | cons a A' =>
    have hwa : wsP a = false := head_class_not_ws hcl hhd
    apply searchL_cons_some
    show matchFilterAt preArtist postFilter ("songs by ".data ++ a :: A') = some (a :: A')
    simp only [matchFilterAt]
    rw [mruns_preArtist_cons hwa, List.findSome?_cons]
    rw [capFilter_full (by simp) hcl h3 hlast]

theorem searchL_album_success {A : List Char} (hne : A ≠ [])
    (hcl : ∀ c ∈ A, c.isLower = true ∨ c = ' ')
    (h3 : containsSub [' ', 'a', 'n', 'd'] (' ' :: A) = false)
    (hhd : A.head? ≠ some ' ') (hlast : A.getLast? ≠ some ' ') :
    searchL (matchFilterAt preAlbum postFilter) ("songs from ".data ++ A) = some A := by
  cases A with
  | nil => exact absurd rfl hne
  | cons a A' =>
    have hwa : wsP a = false := head_class_not_ws hcl hhd
    apply searchL_cons_some
    show matchFilterAt preAlbum postFilter ("songs from ".data ++ a :: A') = some (a :: A')
    simp only [matchFilterAt]
    rw [mruns_preAlbum_cons hwa, List.findSome?_cons]
    rw [capFilter_full (by simp) hcl h3 hlast]

theorem searchL_genre_success {A : List Char} (hne : A ≠ [])
    (hcl : ∀ c ∈ A, c.isLower = true ∨ c = ' ')
    (h3 : containsSub [' ', 'a', 'n', 'd'] (' ' :: A) = false)
    (hhd : A.head? ≠ some ' ') (hlast : A.getLast? ≠ some ' ') :
    searchL (matchFilterAt preGenre postFilter) ("songs in ".data ++ A) = some A := by
  cases A with
  | nil => exact absurd rfl hne
  | cons a A' =>
    have hwa : wsP a = false := head_class_not_ws hcl hhd
    apply searchL_cons_some
    show matchFilterAt preGenre postFilter ("songs in ".data ++ a :: A') = some (a :: A')
    simp only [matchFilterAt]
    rw [mruns_preGenre_cons hwa, List.findSome?_cons]
    rw [capFilter_full (by simp) hcl h3 hlast]

theorem searchL_artist_fail_on_from {A : List Char}
    (hs : containsSub "songs".data A = false) :
    searchL (matchFilterAt preArtist postFilter) ("songs from ".data ++ A) = none := by
  apply searchL_eq_none
  intro i
  rcases Nat.lt_or_ge i 11 with hlt | hge
  · interval_cases i <;> rfl
  · obtain ⟨k, rfl⟩ : ∃ k, i = 11 + k := ⟨i - 11, by omega⟩
    rw [show (11 : Nat) + k = ("songs from ".data).length + k from rfl, List.drop_append]
    apply matchFilterAt_none_of_pre_nil
    rw [show preArtist = .seq (.lit "songs".data) (.seq ws1 (.seq (reStr "by") ws1)) from rfl]
    exact mruns_seq_lit_nil (not_isPrefixOf_of_not_containsSub hs k)

theorem searchL_artist_fail_on_in {A : List Char}
    (hs : containsSub "songs".data A = false) :
    searchL (matchFilterAt preArtist postFilter) ("songs in ".data ++ A) = none := by
  apply searchL_eq_none
  intro i
  rcases Nat.lt_or_ge i 9 with hlt | hge
  · interval_cases i <;> rfl
  · obtain ⟨k, rfl⟩ : ∃ k, i = 9 + k := ⟨i - 9, by omega⟩
    rw [show (9 : Nat) + k = ("songs in ".data).length + k from rfl, List.drop_append]
    apply matchFilterAt_none_of_pre_nil
    rw [show preArtist = .seq (.lit "songs".data) (.seq ws1 (.seq (reStr "by") ws1)) from rfl]
    exact mruns_seq_lit_nil (not_isPrefixOf_of_not_containsSub hs k)

theorem searchL_album_fail_on_in {A : List Char}
    (hs : containsSub "songs".data A = false) :
    searchL (matchFilterAt preAlbum postFilter) ("songs in ".data ++ A) = none := by
  apply searchL_eq_none
  intro i
  rcases Nat.lt_or_ge i 9 with hlt | hge
  · interval_cases i <;> rfl
  · obtain ⟨k, rfl⟩ : ∃ k, i = 9 + k := ⟨i - 9, by omega⟩
    rw [show (9 : Nat) + k = ("songs in ".data).length + k from rfl, List.drop_append]
    apply matchFilterAt_none_of_pre_nil
    rw [show preAlbum = .seq (.lit "songs".data) (.seq ws1 (.seq (reStr "from") ws1)) from rfl]
    exact mruns_seq_lit_nil (not_isPrefixOf_of_not_containsSub hs k)

theorem class_all_not_digit {A : List Char} (hcl : ∀ c ∈ A, c.isLower = true ∨ c = ' ') :
    ∀ c ∈ A, c.isDigit = false := fun c hc => class_not_digit (hcl c hc)

theorem phrase_artist (now : Int) (A : List Char) (hne : A ≠ [])
    (hcl : ∀ c ∈ A, c.isLower = true ∨ c = ' ')
    (h3 : containsSub [' ', 'a', 'n', 'd'] (' ' :: A) = false)
    (hhd : A.head? ≠ some ' ') (hlast : A.getLast? ≠ some ' ')
    (hand : containsSub andSep ("songs by ".data ++ A) = false) :
    parse now (String.mk ("songs by ".data ++ A)) = .single { artist := some (String.mk A) } := by
  have hlow : lowerL ("songs by ".data ++ A) = "songs by ".data ++ A := by
    rw [lowerL_append, lowerL_lower_or_space hcl]
    rw [show lowerL "songs by ".data = "songs by ".data from by decide]
  have hand' : containsSub andSep (lowerL (String.mk ("songs by ".data ++ A)).data) = false := by
    show containsSub andSep (lowerL ("songs by ".data ++ A)) = false
    rw [hlow]
    exact hand
  rw [parse_of_no_and hand']
  show Spec.single ((parseSingle now (lowerL ("songs by ".data ++ A))).getD {}) = _
  rw [hlow]
  have hnd : ∀ c ∈ "songs by ".data ++ A, c.isDigit = false :=
    all_not_digit_append (by decide) (class_all_not_digit hcl)
  rw [parseSingle_artist (searchL_matchNum_nodigit hnd) (searchL_matchNum_nodigit hnd)
    (searchL_matchNum_nodigit hnd) (searchL_artist_success hne hcl h3 hhd hlast)]
  rw [trimChars_id hcl hhd hlast]
  rfl

theorem phrase_album (now : Int) (A : List Char) (hne : A ≠ [])
    (hcl : ∀ c ∈ A, c.isLower = true ∨ c = ' ')
    (h3 : containsSub [' ', 'a', 'n', 'd'] (' ' :: A) = false)
    (hhd : A.head? ≠ some ' ') (hlast : A.getLast? ≠ some ' ')
    (hs : containsSub "songs".data A = false)
    (hand : containsSub andSep ("songs from ".data ++ A) = false) :
    parse now (String.mk ("songs from ".data ++ A)) = .single { album := some (String.mk A) } := by
  have hlow : lowerL ("songs from ".data ++ A) = "songs from ".data ++ A := by
    rw [lowerL_append, lowerL_lower_or_space hcl]
    rw [show lowerL "songs from ".data = "songs from ".data from by decide]
  have hand' : containsSub andSep (lowerL (String.mk ("songs from ".data ++ A)).data) = false := by
    show containsSub andSep (lowerL ("songs from ".data ++ A)) = false
    rw [hlow]
    exact hand
  rw [parse_of_no_and hand']
  show Spec.single ((parseSingle now (lowerL ("songs from ".data ++ A))).getD {}) = _
  rw [hlow]
  have hnd : ∀ c ∈ "songs from ".data ++ A, c.isDigit = false :=
    all_not_digit_append (by decide) (class_all_not_digit hcl)
  rw [parseSingle_album (searchL_matchNum_nodigit hnd) (searchL_matchNum_nodigit hnd)
    (searchL_matchNum_nodigit hnd) (searchL_artist_fail_on_from hs)
    (searchL_album_success hne hcl h3 hhd hlast)]
  rw [trimChars_id hcl hhd hlast]
  rfl

theorem phrase_genre (now : Int) (A : List Char) (hne : A ≠ [])
    (hcl : ∀ c ∈ A, c.isLower = true ∨ c = ' ')
    (h3 : containsSub [' ', 'a', 'n', 'd'] (' ' :: A) = false)
    (hhd : A.head? ≠ some ' ') (hlast : A.getLast? ≠ some ' ')
    (hs : containsSub "songs".data A = false)
    (hand : containsSub andSep ("songs in ".data ++ A) = false) :
    parse now (String.mk ("songs in ".data ++ A)) = .single { genre := some (String.mk A) } := by
  have hlow : lowerL ("songs in ".data ++ A) = "songs in ".data ++ A := by
    rw [lowerL_append, lowerL_lower_or_space hcl]
    rw [show lowerL "songs in ".data = "songs in ".data from by decide]
  have hand' : containsSub andSep (lowerL (String.mk ("songs in ".data ++ A)).data) = false := by
    show containsSub andSep (lowerL ("songs in ".data ++ A)) = false
    rw [hlow]
    exact hand
  rw [parse_of_no_and hand']
  show Spec.single ((parseSingle now (lowerL ("songs in ".data ++ A))).getD {}) = _
  rw [hlow]
  have hnd : ∀ c ∈ "songs in ".data ++ A, c.isDigit = false :=
    all_not_digit_append (by decide) (class_all_not_digit hcl)
  rw [parseSingle_genre (searchL_matchNum_nodigit hnd) (searchL_matchNum_nodigit hnd)
    (searchL_matchNum_nodigit hnd) (searchL_artist_fail_on_in hs)
    (searchL_album_fail_on_in hs) (searchL_genre_success hne hcl h3 hhd hlast)]
  rw [trimChars_id hcl hhd hlast]
  rfl

/-! ## C3: the two day-window patterns -/

theorem searchL_three_zones {f : List Char → Option β} {T ds tail : List Char}
    (h1 : ∀ i, i < T.length → f ((T ++ (ds ++ tail)).drop i) = none)
    (h2 : ∀ j, f (ds.drop j ++ tail) = none)
    (h3 : ∀ j, f (tail.drop j) = none) :
    searchL f (T ++ (ds ++ tail)) = none := by
  apply searchL_eq_none
  intro i
  rcases Nat.lt_or_ge i T.length with hlt | hge
  · exact h1 i hlt
  · obtain ⟨k, rfl⟩ : ∃ k, i = T.length + k := ⟨i - T.length, by omega⟩
    rw [List.drop_append]
    rcases Nat.lt_or_ge k ds.length with hk | hk
    · rw [List.drop_append_of_le_length (Nat.le_of_lt hk)]
      exact h2 k
    · obtain ⟨k2, rfl⟩ : ∃ k2, k = ds.length + k2 := ⟨k - ds.length, by omega⟩
      rw [List.drop_append]
      exact h3 k2

theorem mruns_songs_pre_digit_none {rest : RE} {d : Char} {r : List Char}
    (hd : d.isDigit = true) : mruns (.seq (.lit "songs".data) rest) (d :: r) = [] := by
  apply mruns_seq_lit_nil
  show (('s' == d) && (['o', 'n', 'g', 's'].isPrefixOf r)) = false
  rw [not_s_of_isDigit hd, Bool.false_and]

theorem matchMidNumAt_none_of_pre_nil {pre post : RE} {xs : List Char}
    (h : mruns pre xs = []) : matchMidNumAt pre post xs = none := by
  simp [matchMidNumAt, h]

theorem matchNum_days_digit_zone {post : RE} {ds : List Char}
    (hds : ∀ c ∈ ds, c.isDigit = true)
    (hpost : mruns post (' ' :: "days".data) = [])
    (hnil : matchNumAt post " days".data = none)
    (hdig : ∀ (d' : Char) (r' : List Char), d'.isDigit = true → mruns post (d' :: r') = []) :
    ∀ j, matchNumAt post (ds.drop j ++ " days".data) = none := by
  intro j
  cases hdj : ds.drop j with
  | nil => exact hnil
  | cons d rest =>
    have hsub : ∀ x ∈ d :: rest, x.isDigit = true := by
      intro x hx
      exact hds x (List.drop_subset j ds (hdj ▸ hx))
    exact matchNumAt_digits_none hsub (by decide) hpost hdig

theorem matchNum_days_tail_zone {post : RE}
    (h0 : ∀ j, j < 6 → matchNumAt post (" days".data.drop j) = none)
    (hnil : matchNumAt post [] = none) :
    ∀ j, matchNumAt post (" days".data.drop j) = none := by
  intro j
  rcases Nat.lt_or_ge j 6 with h6 | h6
  · exact h0 j h6
  · rw [show " days".data.drop j = [] from List.drop_eq_nil_iff.mpr
      (by rw [show " days".data.length = 5 from rfl]; omega)]
    exact hnil

theorem mruns_preAddedDays_cons {d : Char} {r : List Char} (hwd : wsP d = false) :
    mruns preAddedDays ("songs added in the last ".data ++ d :: r) = [d :: r] := by
  rw [show preAddedDays = .seq (reStr "songs") (.seq ws1 (.seq (reStr "added")
    (.seq ws1 (.seq (reStr "in") (.seq ws1 (.seq (reStr "the")
      (.seq ws1 (.seq (reStr "last") ws1)))))))) from rfl]
  rw [mruns_seq_eq, show mruns (reStr "songs") ("songs added in the last ".data ++ d :: r) =
    [" added in the last ".data ++ d :: r] from rfl, flatMap_singleton]
  rw [mruns_seq_eq, show mruns ws1 (" added in the last ".data ++ d :: r) =
    ["added in the last ".data ++ d :: r] from rfl, flatMap_singleton]
  rw [mruns_seq_eq, show mruns (reStr "added") ("added in the last ".data ++ d :: r) =
    [" in the last ".data ++ d :: r] from rfl, flatMap_singleton]
  rw [mruns_seq_eq, show mruns ws1 (" in the last ".data ++ d :: r) =
    ["in the last ".data ++ d :: r] from rfl, flatMap_singleton]
  rw [mruns_seq_eq, show mruns (reStr "in") ("in the last ".data ++ d :: r) =
    [" the last ".data ++ d :: r] from rfl, flatMap_singleton]
  rw [mruns_seq_eq, show mruns ws1 (" the last ".data ++ d :: r) =
    ["the last ".data ++ d :: r] from rfl, flatMap_singleton]
  rw [mruns_seq_eq, show mruns (reStr "the") ("the last ".data ++ d :: r) =
    [" last ".data ++ d :: r] from rfl, flatMap_singleton]
  rw [mruns_seq_eq, show mruns ws1 (" last ".data ++ d :: r) =
    ["last ".data ++ d :: r] from rfl, flatMap_singleton]
  rw [mruns_seq_eq, show mruns (reStr "last") ("last ".data ++ d :: r) =
    [' ' :: d :: r] from rfl, flatMap_singleton]
  have htw : (' ' :: d :: r).takeWhile wsP = [' '] := by
    rw [List.takeWhile_cons, show wsP ' ' = true from rfl]
    simp [List.takeWhile_cons, hwd]
  show (List.range (((' ' :: d :: r).takeWhile wsP).length)).map
    (fun j => (' ' :: d :: r).drop (((' ' :: d :: r).takeWhile wsP).length - j)) = [d :: r]
  rw [htw]
  rfl

theorem mruns_prePlayedDays_cons {d : Char} {r : List Char} (hwd : wsP d = false) :
    mruns prePlayedDays ("songs played in the last ".data ++ d :: r) = [d :: r] := by
  rw [show prePlayedDays = .seq (reStr "songs") (.seq ws1 (.seq (reStr "played")
    (.seq ws1 (.seq (reStr "in") (.seq ws1 (.seq (reStr "the")
      (.seq ws1 (.seq (reStr "last") ws1)))))))) from rfl]
  rw [mruns_seq_eq, show mruns (reStr "songs") ("songs played in the last ".data ++ d :: r) =
    [" played in the last ".data ++ d :: r] from rfl, flatMap_singleton]
  rw [mruns_seq_eq, show mruns ws1 (" played in the last ".data ++ d :: r) =
    ["played in the last ".data ++ d :: r] from rfl, flatMap_singleton]
  rw [mruns_seq_eq, show mruns (reStr "played") ("played in the last ".data ++ d :: r) =
    [" in the last ".data ++ d :: r] from rfl, flatMap_singleton]
  rw [mruns_seq_eq, show mruns ws1 (" in the last ".data ++ d :: r) =
    ["in the last ".data ++ d :: r] from rfl, flatMap_singleton]
  rw [mruns_seq_eq, show mruns (reStr "in") ("in the last ".data ++ d :: r) =
    [" the last ".data ++ d :: r] from rfl, flatMap_singleton]
  rw [mruns_seq_eq, show mruns ws1 (" the last ".data ++ d :: r) =
    ["the last ".data ++ d :: r] from rfl, flatMap_singleton]
  rw [mruns_seq_eq, show mruns (reStr "the") ("the last ".data ++ d :: r) =
    [" last ".data ++ d :: r] from rfl, flatMap_singleton]
  rw [mruns_seq_eq, show mruns ws1 (" last ".data ++ d :: r) =
    ["last ".data ++ d :: r] from rfl, flatMap_singleton]
  rw [mruns_seq_eq, show mruns (reStr "last") ("last ".data ++ d :: r) =
    [' ' :: d :: r] from rfl, flatMap_singleton]
  have htw : (' ' :: d :: r).takeWhile wsP = [' '] := by
    rw [List.takeWhile_cons, show wsP ' ' = true from rfl]
    simp [List.takeWhile_cons, hwd]
  show (List.range (((' ' :: d :: r).takeWhile wsP).length)).map
    (fun j => (' ' :: d :: r).drop (((' ' :: d :: r).takeWhile wsP).length - j)) = [d :: r]
  rw [htw]
  rfl

theorem days_tail_zone {f : List Char → Option β}
    (h0 : ∀ j, j < 6 → f (" days".data.drop j) = none)
    (hnil : f [] = none) :
    ∀ j, f (" days".data.drop j) = none := by
  intro j
  rcases Nat.lt_or_ge j 6 with h6 | h6
  · exact h0 j h6
  · rw [show " days".data.drop j = [] from List.drop_eq_nil_iff.mpr
      (by rw [show " days".data.length = 5 from rfl]; omega)]
    exact hnil

theorem matchFilter_days_digit_zone {pre post rest : RE} {ds : List Char}
    (hpre : pre = .seq (.lit "songs".data) rest)
    (hds : ∀ c ∈ ds, c.isDigit = true)
    (hnil : matchFilterAt pre post " days".data = none) :
    ∀ j, matchFilterAt pre post (ds.drop j ++ " days".data) = none := by
  intro j
  cases hdj : ds.drop j with
  | nil => exact hnil
  | cons d rest' =>
    apply matchFilterAt_none_of_pre_nil
    rw [hpre]
    exact mruns_songs_pre_digit_none
      (hds d (List.drop_subset j ds (hdj ▸ List.mem_cons_self d rest')))

theorem matchMidNum_days_digit_zone {pre post rest : RE} {ds : List Char}
    (hpre : pre = .seq (.lit "songs".data) rest)
    (hds : ∀ c ∈ ds, c.isDigit = true)
    (hnil : matchMidNumAt pre post " days".data = none) :
    ∀ j, matchMidNumAt pre post (ds.drop j ++ " days".data) = none := by
  intro j
  cases hdj : ds.drop j with
  | nil => exact hnil
  | cons d rest' =>
    apply matchMidNumAt_none_of_pre_nil
    rw [hpre]
    exact mruns_songs_pre_digit_none
      (hds d (List.drop_subset j ds (hdj ▸ List.mem_cons_self d rest')))

theorem searchL_addedDays_success {ds : List Char} (hne : ds ≠ [])
    (hds : ∀ c ∈ ds, c.isDigit = true) :
    searchL (matchMidNumAt preAddedDays postDays)
      ("songs added in the last ".data ++ (ds ++ " days".data)) = some (digitsToNat ds) := by
  cases ds with
  | nil => exact absurd rfl hne
  | cons d rest =>
    have hwd : wsP d = false := by
      rw [show wsP d = d.isWhitespace from rfl]
      exact not_ws_of_isDigit (hds d (List.mem_cons_self d rest))
    apply searchL_cons_some
    show matchMidNumAt preAddedDays postDays
      ("songs added in the last ".data ++ (d :: (rest ++ " days".data))) = some (digitsToNat (d :: rest))
    simp only [matchMidNumAt]
    rw [mruns_preAddedDays_cons hwd, List.findSome?_cons]
    rw [show (d :: (rest ++ " days".data)) = ((d :: rest) ++ ' ' :: "days".data) from rfl]
    rw [matchNumAt_digits_some hds (by simp) (by decide) (by decide)]

theorem searchL_playedDays_success {ds : List Char} (hne : ds ≠ [])
    (hds : ∀ c ∈ ds, c.isDigit = true) :
    searchL (matchMidNumAt prePlayedDays postDays)
      ("songs played in the last ".data ++ (ds ++ " days".data)) = some (digitsToNat ds) := by
  cases ds with
  | nil => exact absurd rfl hne
  | cons d rest =>
    have hwd : wsP d = false := by
      rw [show wsP d = d.isWhitespace from rfl]
      exact not_ws_of_isDigit (hds d (List.mem_cons_self d rest))
    apply searchL_cons_some
    show matchMidNumAt prePlayedDays postDays
      ("songs played in the last ".data ++ (d :: (rest ++ " days".data))) = some (digitsToNat (d :: rest))
    simp only [matchMidNumAt]
    rw [mruns_prePlayedDays_cons hwd, List.findSome?_cons]
    rw [show (d :: (rest ++ " days".data)) = ((d :: rest) ++ ' ' :: "days".data) from rfl]
    rw [matchNumAt_digits_some hds (by simp) (by decide) (by decide)]

theorem phrase_added_days (now : Int) (ds : List Char) (hne : ds ≠ [])
    (hds : ∀ c ∈ ds, c.isDigit = true)
    (hand : containsSub andSep
      ("songs added in the last ".data ++ (ds ++ " days".data)) = false) :
    parse now (String.mk ("songs added in the last ".data ++ (ds ++ " days".data))) =
      .single { added_after := some (now - (digitsToNat ds : Int) * oneDay),
                sort_by := some "added_at", sort_order := some "desc" } := by
  have hlow : lowerL ("songs added in the last ".data ++ (ds ++ " days".data)) =
      "songs added in the last ".data ++ (ds ++ " days".data) := by
    rw [lowerL_append, lowerL_append, lowerL_digits hds,
      show lowerL "songs added in the last ".data = "songs added in the last ".data
        from by decide,
      show lowerL " days".data = " days".data from by decide]
  have hand' : containsSub andSep (lowerL (String.mk
      ("songs added in the last ".data ++ (ds ++ " days".data))).data) = false := by
    show containsSub andSep
      (lowerL ("songs added in the last ".data ++ (ds ++ " days".data))) = false
    rw [hlow]
    exact hand
  rw [parse_of_no_and hand']
  show Spec.single ((parseSingle now
    (lowerL ("songs added in the last ".data ++ (ds ++ " days".data)))).getD {}) = _
  rw [hlow]
  have hz1 : ∀ i, i < ("songs added in the last ".data).length →
      matchNumAt postRecentlyAdded
        (("songs added in the last ".data ++ (ds ++ " days".data)).drop i) = none := by
    intro i hi
    rw [show ("songs added in the last ".data).length = 24 from rfl] at hi
    interval_cases i <;> rfl
  have hf1 : searchL (matchNumAt postRecentlyAdded)
      ("songs added in the last ".data ++ (ds ++ " days".data)) = none :=
    searchL_three_zones hz1
      (matchNum_days_digit_zone hds (by decide) (by decide)
        (fun d' r' hd' => mruns_ws1_seq_digit_none hd'))
      (matchNum_days_tail_zone (by intro j hj; interval_cases j <;> rfl) rfl)
  have hz2 : ∀ i, i < ("songs added in the last ".data).length →
      matchNumAt postLastPlayed
        (("songs added in the last ".data ++ (ds ++ " days".data)).drop i) = none := by
    intro i hi
    rw [show ("songs added in the last ".data).length = 24 from rfl] at hi
    interval_cases i <;> rfl
  have hf2 : searchL (matchNumAt postLastPlayed)
      ("songs added in the last ".data ++ (ds ++ " days".data)) = none :=
    searchL_three_zones hz2
      (matchNum_days_digit_zone hds (by decide) (by decide)
        (fun d' r' hd' => mruns_ws1_seq_digit_none hd'))
      (matchNum_days_tail_zone (by intro j hj; interval_cases j <;> rfl) rfl)
  have hz3 : ∀ i, i < ("songs added in the last ".data).length →
      matchNumAt postMostPlayed
        (("songs added in the last ".data ++ (ds ++ " days".data)).drop i) = none := by
    intro i hi
    rw [show ("songs added in the last ".data).length = 24 from rfl] at hi
    interval_cases i <;> rfl
  have hf3 : searchL (matchNumAt postMostPlayed)
      ("songs added in the last ".data ++ (ds ++ " days".data)) = none :=
    searchL_three_zones hz3
      (matchNum_days_digit_zone hds (by decide) (by decide)
        (fun d' r' hd' => mruns_ws1_seq_digit_none hd'))
      (matchNum_days_tail_zone (by intro j hj; interval_cases j <;> rfl) rfl)
  have hz4 : ∀ i, i < ("songs added in the last ".data).length →
      matchFilterAt preArtist postFilter
        (("songs added in the last ".data ++ (ds ++ " days".data)).drop i) = none := by
    intro i hi
    rw [show ("songs added in the last ".data).length = 24 from rfl] at hi
    interval_cases i <;> rfl
  have hf4 : searchL (matchFilterAt preArtist postFilter)
      ("songs added in the last ".data ++ (ds ++ " days".data)) = none :=
    searchL_three_zones hz4
      (matchFilter_days_digit_zone rfl hds rfl)
      (days_tail_zone (by intro j hj; interval_cases j <;> rfl) rfl)
  have hz5 : ∀ i, i < ("songs added in the last ".data).length →
      matchFilterAt preAlbum postFilter
        (("songs added in the last ".data ++ (ds ++ " days".data)).drop i) = none := by
    intro i hi
    rw [show ("songs added in the last ".data).length = 24 from rfl] at hi
    interval_cases i <;> rfl
  have hf5 : searchL (matchFilterAt preAlbum postFilter)
      ("songs added in the last ".data ++ (ds ++ " days".data)) = none :=
    searchL_three_zones hz5
      (matchFilter_days_digit_zone rfl hds rfl)
      (days_tail_zone (by intro j hj; interval_cases j <;> rfl) rfl)
  have hz6 : ∀ i, i < ("songs added in the last ".data).length →
      matchFilterAt preGenre postFilter
        (("songs added in the last ".data ++ (ds ++ " days".data)).drop i) = none := by
    intro i hi
    rw [show ("songs added in the last ".data).length = 24 from rfl] at hi
    interval_cases i <;> rfl
  have hf6 : searchL (matchFilterAt preGenre postFilter)
      ("songs added in the last ".data ++ (ds ++ " days".data)) = none :=
    searchL_three_zones hz6
      (matchFilter_days_digit_zone rfl hds rfl)
      (days_tail_zone (by intro j hj; interval_cases j <;> rfl) rfl)
  rw [parseSingle_addedDays hf1 hf2 hf3 hf4 hf5 hf6
    (searchL_addedDays_success hne hds)]
  rfl

theorem phrase_played_days (now : Int) (ds : List Char) (hne : ds ≠ [])
    (hds : ∀ c ∈ ds, c.isDigit = true)
    (hand : containsSub andSep
      ("songs played in the last ".data ++ (ds ++ " days".data)) = false) :
    parse now (String.mk ("songs played in the last ".data ++ (ds ++ " days".data))) =
      .single { played_after := some (now - (digitsToNat ds : Int) * oneDay),
                sort_by := some "last_played_at", sort_order := some "desc" } := by
  have hlow : lowerL ("songs played in the last ".data ++ (ds ++ " days".data)) =
      "songs played in the last ".data ++ (ds ++ " days".data) := by
    rw [lowerL_append, lowerL_append, lowerL_digits hds,
      show lowerL "songs played in the last ".data = "songs played in the last ".data
        from by decide,
      show lowerL " days".data = " days".data from by decide]
  have hand' : containsSub andSep (lowerL (String.mk
      ("songs played in the last ".data ++ (ds ++ " days".data))).data) = false := by
    show containsSub andSep
      (lowerL ("songs played in the last ".data ++ (ds ++ " days".data))) = false
    rw [hlow]
    exact hand
  rw [parse_of_no_and hand']
  show Spec.single ((parseSingle now
    (lowerL ("songs played in the last ".data ++ (ds ++ " days".data)))).getD {}) = _
  rw [hlow]
  have hz1 : ∀ i, i < ("songs played in the last ".data).length →
      matchNumAt postRecentlyAdded
        (("songs played in the last ".data ++ (ds ++ " days".data)).drop i) = none := by
    intro i hi
    rw [show ("songs played in the last ".data).length = 25 from rfl] at hi
    interval_cases i <;> rfl
  have hf1 : searchL (matchNumAt postRecentlyAdded)
      ("songs played in the last ".data ++ (ds ++ " days".data)) = none :=
    searchL_three_zones hz1
      (matchNum_days_digit_zone hds (by decide) (by decide)
        (fun d' r' hd' => mruns_ws1_seq_digit_none hd'))
      (matchNum_days_tail_zone (by intro j hj; interval_cases j <;> rfl) rfl)
  have hz2 : ∀ i, i < ("songs played in the last ".data).length →
      matchNumAt postLastPlayed
        (("songs played in the last ".data ++ (ds ++ " days".data)).drop i) = none := by
    intro i hi
    rw [show ("songs played in the last ".data).length = 25 from rfl] at hi
    interval_cases i <;> rfl
  have hf2 : searchL (matchNumAt postLastPlayed)
      ("songs played in the last ".data ++ (ds ++ " days".data)) = none :=
    searchL_three_zones hz2
      (matchNum_days_digit_zone hds (by decide) (by decide)
        (fun d' r' hd' => mruns_ws1_seq_digit_none hd'))
      (matchNum_days_tail_zone (by intro j hj; interval_cases j <;> rfl) rfl)
  have hz3 : ∀ i, i < ("songs played in the last ".data).length →
      matchNumAt postMostPlayed
        (("songs played in the last ".data ++ (ds ++ " days".data)).drop i) = none := by
    intro i hi
    rw [show ("songs played in the last ".data).length = 25 from rfl] at hi
    interval_cases i <;> rfl
  have hf3 : searchL (matchNumAt postMostPlayed)
      ("songs played in the last ".data ++ (ds ++ " days".data)) = none :=
    searchL_three_zones hz3
      (matchNum_days_digit_zone hds (by decide) (by decide)
        (fun d' r' hd' => mruns_ws1_seq_digit_none hd'))
      (matchNum_days_tail_zone (by intro j hj; interval_cases j <;> rfl) rfl)
  have hz4 : ∀ i, i < ("songs played in the last ".data).length →
      matchFilterAt preArtist postFilter
        (("songs played in the last ".data ++ (ds ++ " days".data)).drop i) = none := by
    intro i hi
    rw [show ("songs played in the last ".data).length = 25 from rfl] at hi
    interval_cases i <;> rfl
  have hf4 : searchL (matchFilterAt preArtist postFilter)
      ("songs played in the last ".data ++ (ds ++ " days".data)) = none :=
    searchL_three_zones hz4
      (matchFilter_days_digit_zone rfl hds rfl)
      (days_tail_zone (by intro j hj; interval_cases j <;> rfl) rfl)
  have hz5 : ∀ i, i < ("songs played in the last ".data).length →
      matchFilterAt preAlbum postFilter
        (("songs played in the last ".data ++ (ds ++ " days".data)).drop i) = none := by
    intro i hi
    rw [show ("songs played in the last ".data).length = 25 from rfl] at hi
    interval_cases i <;> rfl
  have hf5 : searchL (matchFilterAt preAlbum postFilter)
      ("songs played in the last ".data ++ (ds ++ " days".data)) = none :=
    searchL_three_zones hz5
      (matchFilter_days_digit_zone rfl hds rfl)
      (days_tail_zone (by intro j hj; interval_cases j <;> rfl) rfl)
  have hz6 : ∀ i, i < ("songs played in the last ".data).length →
      matchFilterAt preGenre postFilter
        (("songs played in the last ".data ++ (ds ++ " days".data)).drop i) = none := by
    intro i hi
    rw [show ("songs played in the last ".data).length = 25 from rfl] at hi
    interval_cases i <;> rfl
  have hf6 : searchL (matchFilterAt preGenre postFilter)
      ("songs played in the last ".data ++ (ds ++ " days".data)) = none :=
    searchL_three_zones hz6
      (matchFilter_days_digit_zone rfl hds rfl)
      (days_tail_zone (by intro j hj; interval_cases j <;> rfl) rfl)
  have hz7 : ∀ i, i < ("songs played in the last ".data).length →
      matchMidNumAt preAddedDays postDays
        (("songs played in the last ".data ++ (ds ++ " days".data)).drop i) = none := by
    intro i hi
    rw [show ("songs played in the last ".data).length = 25 from rfl] at hi
    interval_cases i <;> rfl
  have hf7 : searchL (matchMidNumAt preAddedDays postDays)
      ("songs played in the last ".data ++ (ds ++ " days".data)) = none :=
    searchL_three_zones hz7
      (matchMidNum_days_digit_zone rfl hds rfl)
      (days_tail_zone (by intro j hj; interval_cases j <;> rfl) rfl)
  rw [parseSingle_playedDays hf1 hf2 hf3 hf4 hf5 hf6 hf7
    (searchL_playedDays_success hne hds)]
  rfl

/-- Claim C3: each recognized single-clause phrasing produces exactly the
documented specification fields, with the patterns tried in the fixed
priority order and the first match winning.  For every decimal numeral
`ds`: `"<N> [most] recently added songs"` gives sort added_at/desc with
limit N; `"<N> [most] (recently played|last played) songs"` gives sort
last_played_at/desc with limit N (never cross-matching the added or
play-count patterns); `"<N> most played songs"` gives play_count/desc
with limit N.  For clean filter values `A` (non-empty words of lowercase
letters and inner spaces, no leading/trailing space, no embedded
`" and"`, no embedded `"songs"` for the later patterns, clause free of
`" and "`): `"songs by A"`, `"songs from A"`, `"songs in A"` give
exactly the artist/album/genre filter with no sort and no limit, and
`parse "songs by The Beatles"` is the case-folded
`{artist := "the beatles"}`.  `"songs (added|played) in the last <N>
days"` gives the matching `*_after` timestamp `now - N days` with the
documented sort and no limit. -/
theorem c3_single_clause_patterns (now : Int) :
    (∀ ds : List Char, ds ≠ [] → (∀ c ∈ ds, c.isDigit = true) →
      parse now (String.mk (ds ++ " most recently added songs".data)) =
        .single { sort_by := some "added_at", sort_order := some "desc",
                  limit := some (digitsToNat ds) }) ∧
    (∀ ds : List Char, ds ≠ [] → (∀ c ∈ ds, c.isDigit = true) →
      parse now (String.mk (ds ++ " recently added songs".data)) =
        .single { sort_by := some "added_at", sort_order := some "desc",
                  limit := some (digitsToNat ds) }) ∧
    (∀ ds : List Char, ds ≠ [] → (∀ c ∈ ds, c.isDigit = true) →
      parse now (String.mk (ds ++ " most recently played songs".data)) =
        .single { sort_by := some "last_played_at", sort_order := some "desc",
                  limit := some (digitsToNat ds) }) ∧
    (∀ ds : List Char, ds ≠ [] → (∀ c ∈ ds, c.isDigit = true) →
      parse now (String.mk (ds ++ " recently played songs".data)) =
        .single { sort_by := some "last_played_at", sort_order := some "desc",
                  limit := some (digitsToNat ds) }) ∧
    (∀ ds : List Char, ds ≠ [] → (∀ c ∈ ds, c.isDigit = true) →
      parse now (String.mk (ds ++ " last played songs".data)) =
        .single { sort_by := some "last_played_at", sort_order := some "desc",
                  limit := some (digitsToNat ds) }) ∧
    (∀ ds : List Char, ds ≠ [] → (∀ c ∈ ds, c.isDigit = true) →
      parse now (String.mk (ds ++ " most played songs".data)) =
        .single { sort_by := some "play_count", sort_order := some "desc",
                  limit := some (digitsToNat ds) }) ∧
    (∀ A : List Char, A ≠ [] → (∀ c ∈ A, c.isLower = true ∨ c = ' ') →
      containsSub [' ', 'a', 'n', 'd'] (' ' :: A) = false →
      A.head? ≠ some ' ' → A.getLast? ≠ some ' ' →
      containsSub andSep ("songs by ".data ++ A) = false →
      parse now (String.mk ("songs by ".data ++ A)) =
        .single { artist := some (String.mk A) }) ∧
    (parse now "songs by The Beatles" = .single { artist := some "the beatles" }) ∧
    (∀ A : List Char, A ≠ [] → (∀ c ∈ A, c.isLower = true ∨ c = ' ') →
      containsSub [' ', 'a', 'n', 'd'] (' ' :: A) = false →
      A.head? ≠ some ' ' → A.getLast? ≠ some ' ' →
      containsSub "songs".data A = false →
      containsSub andSep ("songs from ".data ++ A) = false →
      parse now (String.mk ("songs from ".data ++ A)) =
        .single { album := some (String.mk A) }) ∧
    (∀ A : List Char, A ≠ [] → (∀ c ∈ A, c.isLower = true ∨ c = ' ') →
      containsSub [' ', 'a', 'n', 'd'] (' ' :: A) = false →
      A.head? ≠ some ' ' → A.getLast? ≠ some ' ' →
      containsSub "songs".data A = false →
      containsSub andSep ("songs in ".data ++ A) = false →
      parse now (String.mk ("songs in ".data ++ A)) =
        .single { genre := some (String.mk A) }) ∧
    (∀ ds : List Char, ds ≠ [] → (∀ c ∈ ds, c.isDigit = true) →
      containsSub andSep ("songs added in the last ".data ++ (ds ++ " days".data)) = false →
      parse now (String.mk ("songs added in the last ".data ++ (ds ++ " days".data))) =
        .single { added_after := some (now - (digitsToNat ds : Int) * oneDay),
                  sort_by := some "added_at", sort_order := some "desc" }) ∧
    (∀ ds : List Char, ds ≠ [] → (∀ c ∈ ds, c.isDigit = true) →
      containsSub andSep ("songs played in the last ".data ++ (ds ++ " days".data)) = false →
      parse now (String.mk ("songs played in the last ".data ++ (ds ++ " days".data))) =
        .single { played_after := some (now - (digitsToNat ds : Int) * oneDay),
                  sort_by := some "last_played_at", sort_order := some "desc" }) := by
  refine ⟨fun ds hne hds => phrase_most_recently_added now ds hne hds,
    fun ds hne hds => phrase_recently_added now ds hne hds,
    fun ds hne hds => phrase_most_recently_played now ds hne hds,
    fun ds hne hds => phrase_recently_played now ds hne hds,
    fun ds hne hds => phrase_last_played now ds hne hds,
    fun ds hne hds => phrase_most_played now ds hne hds,
    fun A hne hcl h3 hhd hlast hand => phrase_artist now A hne hcl h3 hhd hlast hand,
    ?_,
    fun A hne hcl h3 hhd hlast hs hand => phrase_album now A hne hcl h3 hhd hlast hs hand,
    fun A hne hcl h3 hhd hlast hs hand => phrase_genre now A hne hcl h3 hhd hlast hs hand,
    fun ds hne hds hand => phrase_added_days now ds hne hds hand,
    fun ds hne hds hand => phrase_played_days now ds hne hds hand⟩
  rw [parse_of_no_and (by decide)]
  rw [show lowerL "songs by The Beatles".data = "songs by the beatles".data from by decide]
  rw [parseSingle_artist (by decide) (by decide) (by decide)
    (show searchL (matchFilterAt preArtist postFilter) "songs by the beatles".data =
      some "the beatles".data from by decide)]
  decide

/-- Closed instance of C3: one phrasing from each pattern family at a
concrete numeral or filter value. -/
theorem c3_witness :
    parse 7 (String.mk (['1', '0'] ++ " most recently added songs".data)) =
      .single { sort_by := some "added_at", sort_order := some "desc", limit := some 10 } ∧
    parse 7 (String.mk (['5'] ++ " last played songs".data)) =
      .single { sort_by := some "last_played_at", sort_order := some "desc", limit := some 5 } ∧
    parse 7 (String.mk (['3'] ++ " most played songs".data)) =
      .single { sort_by := some "play_count", sort_order := some "desc", limit := some 3 } ∧
    parse 7 "songs by The Beatles" = .single { artist := some "the beatles" } ∧
    parse 7 (String.mk ("songs from ".data ++ "abbey road".data)) =
      .single { album := some "abbey road" } ∧
    parse 7 (String.mk ("songs in ".data ++ "jazz".data)) =
      .single { genre := some "jazz" } ∧
    parse 7 (String.mk ("songs added in the last ".data ++ (['3'] ++ " days".data))) =
      .single { added_after := some (7 - (3 : Int) * oneDay), sort_by := some "added_at",
                sort_order := some "desc" } ∧
    parse 7 (String.mk ("songs played in the last ".data ++ (['2'] ++ " days".data))) =
      .single { played_after := some (7 - (2 : Int) * oneDay),
                sort_by := some "last_played_at", sort_order := some "desc" } :=
  have h := c3_single_clause_patterns 7
  ⟨h.1 ['1', '0'] (by decide) (by decide),
   h.2.2.2.2.1 ['5'] (by decide) (by decide),
   h.2.2.2.2.2.1 ['3'] (by decide) (by decide),
   h.2.2.2.2.2.2.2.1,
   (h.2.2.2.2.2.2.2.2.1 "abbey road".data (by decide) (by decide) (by decide) (by decide)
     (by decide) (by decide) (by decide)).trans (by decide),
   (h.2.2.2.2.2.2.2.2.2.1 "jazz".data (by decide) (by decide) (by decide) (by decide)
     (by decide) (by decide) (by decide)).trans (by decide),
   (h.2.2.2.2.2.2.2.2.2.2.1 ['3'] (by decide) (by decide) (by decide)).trans (by decide),
   (h.2.2.2.2.2.2.2.2.2.2.2 ['2'] (by decide) (by decide) (by decide)).trans (by decide)⟩

end Mkplaylist
